import Mathlib

/-!
Verification development for the pystgres in-memory PostgreSQL emulator
(src/pystgres.py, src/exc.py).

The Python source is shallowly embedded: pure functions become Lean
functions, fallible code returns `Except PgError`, Python dicts become
association lists in which each key occurs once (Python dict equality is
order-insensitive, so only the key/value mapping is modelled), and lazy
generators become eagerly computed lists (laziness only affects which of
several errors surfaces first; no theorem below depends on that choice).
Host (Python) exceptions that are not part of the `exc.PostgresError`
hierarchy - TypeError, ValueError, KeyError, ... - are modelled by the
`PgError.hostError` constructor, tagged with the host exception kind.
Error message strings are not modelled; errors are identified by their
exception class, exactly as the repository's own tests do
(`pytest.raises(exc.AmbiguousColumnError)` etc.).
-/

namespace Pystgres

/-- Host exception kinds (Python exceptions that are not PostgresError). -/
inductive HostExc where
  | typeError
  | valueError
  | attributeError
  | assertionError
  | keyError
  | indexError
deriving DecidableEq

/-- The error taxonomy of src/exc.py, plus NotImplementedError and host errors. -/
inductive PgError where
  | undefinedTable
  | notNullViolation
  | duplicateAlias
  | undefinedColumn
  | ambiguousColumn
  | ambiguousTable
  | invalidEscapeSequence
  | undefinedFunction
  | invalidSchemaName
  | postgresSyntaxError
  | invalidTextRepresentation
  | undefinedObject
  | notImplemented
  | hostError (kind : HostExc)
deriving DecidableEq

deriving instance DecidableEq for Except

/-- Cell values: integer, text, boolean, NULL (spec section 3).  The extra
`hostClosure` constructor models the opaque host function object that
`simple_select` stores when a VALUES element compiles to a non-constant
`Element` (it takes `.value` of the compiled expression, which for an
`Element` is the evaluation lambda itself). -/
inductive Value where
  | null
  | int (n : Int)
  | str (s : String)
  | bool (b : Bool)
  | hostClosure
deriving DecidableEq

/-- Numeric view of a value: Python treats `bool` as an `int` subclass. -/
def Value.toNum : Value → Option Int
  | .int n => some n
  | .bool b => some (if b then 1 else 0)
  | _ => none

/-- Python truthiness of a cell value (used by WHERE and join quals). -/
def pyTruthy : Value → Bool
  | .null => false
  | .bool b => b
  | .int n => n != 0
  | .str s => s != ""
  | .hostClosure => true

/-- Python `==` on cell values: numeric values compare numerically
(`1 == True`), `None == None` is true, cross-type comparison is false.
Distinct host closures are not distinguished by the model. -/
def pyEqB (a b : Value) : Bool :=
  match a.toNum, b.toNum with
  | some x, some y => x == y
  | _, _ =>
    match a, b with
    | .null, .null => true
    | .str s, .str t => s == t
    | .hostClosure, .hostClosure => true
    | _, _ => false

/-- Python `<` on cell values; incomparable types raise TypeError. -/
def pyLt (a b : Value) : Except PgError Bool :=
  match a.toNum, b.toNum with
  | some x, some y => .ok (decide (x < y))
  | _, _ =>
    match a, b with
    | .str s, .str t => .ok (decide (s < t))
    | _, _ => .error (.hostError .typeError)

/-- Python `<=` on cell values. -/
def pyLe (a b : Value) : Except PgError Bool :=
  match a.toNum, b.toNum with
  | some x, some y => .ok (decide (x ≤ y))
  | _, _ =>
    match a, b with
    | .str s, .str t => .ok (decide (s ≤ t))
    | _, _ => .error (.hostError .typeError)

/-- Python `+` on cell values: numeric addition or string concatenation. -/
def pyAdd (a b : Value) : Except PgError Value :=
  match a.toNum, b.toNum with
  | some x, some y => .ok (.int (x + y))
  | _, _ =>
    match a, b with
    | .str s, .str t => .ok (.str (s ++ t))
    | _, _ => .error (.hostError .typeError)

/-- Python `-` on cell values. -/
def pySub (a b : Value) : Except PgError Value :=
  match a.toNum, b.toNum with
  | some x, some y => .ok (.int (x - y))
  | _, _ => .error (.hostError .typeError)

/-- Python `str.strip` (ASCII whitespace), as a character list. -/
def pyStrip (s : String) : List Char :=
  ((s.data.dropWhile Char.isWhitespace).reverse.dropWhile Char.isWhitespace).reverse

/-- ASCII lower-casing of one character (Python `str.lower`, restricted
to ASCII; the catalog only compares against ASCII keywords). -/
def pyLowerChar (c : Char) : Char :=
  if 'A' ≤ c ∧ c ≤ 'Z' then Char.ofNat (c.toNat + 32) else c

/-- Python `str.lower` on a character list. -/
def pyLower (cs : List Char) : List Char := cs.map pyLowerChar

/-- Digits of a decimal integer literal. -/
def parseDigits : List Char → Option Nat
  | [] => none
  | cs => cs.foldlM (fun acc c => if c.isDigit then some (acc * 10 + (c.toNat - 48)) else none) 0

/-- The host `int` builtin applied to a string (after `int` strips
whitespace): optional sign followed by at least one digit, otherwise
ValueError.  (Underscore digit separators are not modelled.) -/
def pyParseInt (s : String) : Option Int :=
  match pyStrip s with
  | '-' :: rest => (parseDigits rest).map (fun n => -(n : Int))
  | '+' :: rest => (parseDigits rest).map (fun n => (n : Int))
  | rest => (parseDigits rest).map (fun n => (n : Int))

/-- The `integer`/`int4` converter of `create_pg_catalog`: it is the bare
host `int` builtin (`PgType(converter=int, ...)`).  `int(None)` raises a
host TypeError - NULL does NOT pass through this converter. -/
def py_int : Value → Except PgError Value
  | .null => .error (.hostError .typeError)
  | .int n => .ok (.int n)
  | .bool b => .ok (.int (if b then 1 else 0))
  | .str s =>
    match pyParseInt s with
    | some n => .ok (.int n)
    | none => .error (.hostError .valueError)
  | .hostClosure => .error (.hostError .typeError)

/-- The `bool` converter `pg_bool` of `create_pg_catalog`: NULL passes
through; a string is stripped and lower-cased and must be a non-empty
prefix of `true` or `false`, otherwise InvalidTextRepresentation; an
integer (Python bools included) maps to its truthiness.  Any other input
raises NotImplementedError. -/
def pg_bool : Value → Except PgError Value
  | .null => .ok .null
  | .str s =>
    let v := pyLower (pyStrip s)
    if v ≠ [] ∧ v.isPrefixOf (("true").data) then .ok (.bool true)
    else if v ≠ [] ∧ v.isPrefixOf (("false").data) then .ok (.bool false)
    else .error .invalidTextRepresentation
  | .bool b => .ok (.bool b)
  | .int n => .ok (.bool (n != 0))
  | .hostClosure => .error .notImplemented

/-- The `text` converter `pg_text` of `create_pg_catalog`: NULL and
strings pass through, booleans render lower-case, anything else via host
`str` (for integers, their decimal rendering; note `0 in (True, False)`
and `1 in (True, False)` are true in Python but `str(0).lower()` and
`str(1).lower()` coincide with `str` there, so one branch suffices). -/
def pg_text : Value → Except PgError Value
  | .null => .ok .null
  | .str s => .ok (.str s)
  | .bool b => .ok (.str (if b then "true" else "false"))
  | .int n => .ok (.str (toString n))
  | .hostClosure => .ok (.str ("<function>"))

/-- The `length` builtin function (`Function(fn=len)`): host `len`, which
succeeds on a single string argument and raises TypeError otherwise. -/
def py_len : List Value → Except PgError Value
  | [.str s] => .ok (.int (s.length : Int))
  | _ => .error (.hostError .typeError)

/-! Monadic list helpers.  Python's generators and comprehensions are
modelled by these explicitly recursive functions over `Except`; effects
run left-to-right, as the generators are consumed in order. -/

/-- Map a fallible function over a list, stopping at the first error. -/
def exceptMapList (f : α → Except PgError β) : List α → Except PgError (List β)
  | [] => .ok []
  | x :: xs =>
    match f x with
    | .error e => .error e
    | .ok y =>
      match exceptMapList f xs with
      | .error e => .error e
      | .ok ys => .ok (y :: ys)

/-- Filter a list by a fallible predicate, stopping at the first error. -/
def exceptFilterList (p : α → Except PgError Bool) : List α → Except PgError (List α)
  | [] => .ok []
  | x :: xs =>
    match p x with
    | .error e => .error e
    | .ok b =>
      match exceptFilterList p xs with
      | .error e => .error e
      | .ok ys => .ok (if b then x :: ys else ys)

/-- Fold a fallible function over a list, stopping at the first error. -/
def exceptFoldList (f : σ → α → Except PgError σ) (init : σ) : List α → Except PgError σ
  | [] => .ok init
  | x :: xs =>
    match f init x with
    | .error e => .error e
    | .ok s => exceptFoldList f s xs

/-! The LIKE / ILIKE machinery (`_like_pattern_to_regex`, `like_operator`,
`ilike_operator`).  The host `re` module is modelled only on the regex
fragment the translator emits: literal characters, backslash escapes,
`.` and `.*` (with `.` excluding newline, as in Python without DOTALL). -/

/-- Python `\w` (word character), restricted to ASCII alphanumerics and
underscore.  The classification only decides whether the translator
inserts a protective backslash, which the regex parser strips again, so
none of the properties proved below depend on the exact class. -/
def isWordChar (c : Char) : Bool := c.isAlphanum || c == '_'

/-- The character loop of `_like_pattern_to_regex`, threading the
`escaped` flag; a pattern exhausted while `escaped` is set raises
`InvalidEscapeSequence`. -/
def likeRegexAux : List Char → Bool → Except PgError (List Char)
  | [], escaped => if escaped then .error .invalidEscapeSequence else .ok []
  | c :: rest, true =>
    match likeRegexAux rest false with
    | .error e => .error e
    | .ok tail => .ok ((if isWordChar c then [c] else ['\\', c]) ++ tail)
  | c :: rest, false =>
    if c = '\\' then likeRegexAux rest true
    else if c = '_' then
      match likeRegexAux rest false with
      | .error e => .error e
      | .ok tail => .ok ('.' :: tail)
    else if c = '%' then
      match likeRegexAux rest false with
      | .error e => .error e
      | .ok tail => .ok ('.' :: '*' :: tail)
    else
      match likeRegexAux rest false with
      | .error e => .error e
      | .ok tail => .ok ((if isWordChar c then [c] else ['\\', c]) ++ tail)

/-- Model of `_like_pattern_to_regex`, as a character list. -/
def like_pattern_to_regex (pattern : String) : Except PgError (List Char) :=
  likeRegexAux pattern.data false

/-- Tokens of the regex fragment emitted by the translator. -/
inductive RTok where
  | lit (c : Char)
  | anyChar
  | anyStar
deriving DecidableEq

/-- Parse the emitted regex string back into tokens.  The translator
never emits a dangling backslash or a bare `*`, so those parses are
unreachable on its outputs. -/
def parseRegexChars : List Char → List RTok
  | [] => []
  | [c] =>
    if c = '\\' then [.lit '\\']
    else if c = '.' then [.anyChar]
    else [.lit c]
  | c :: d :: rest =>
    if c = '\\' then .lit d :: parseRegexChars rest
    else if c = '.' ∧ d = '*' then .anyStar :: parseRegexChars rest
    else if c = '.' then .anyChar :: parseRegexChars (d :: rest)
    else .lit c :: parseRegexChars (d :: rest)

/-- Full-string matching of the token list against the text, as
`re.fullmatch` does on the emitted fragment; `ceq` is the character
comparison (case-sensitive for LIKE, case-folding for ILIKE). -/
def rmatch (ceq : Char → Char → Bool) : List RTok → List Char → Bool
  | [], [] => true
  | [], _ :: _ => false
  | .lit _ :: _, [] => false
  | .lit c :: ts, d :: ds => ceq c d && rmatch ceq ts ds
  | .anyChar :: _, [] => false
  | .anyChar :: ts, d :: ds => decide (d ≠ '\n') && rmatch ceq ts ds
  | .anyStar :: ts, [] => rmatch ceq ts []
  | .anyStar :: ts, d :: ds =>
    rmatch ceq ts (d :: ds) || (decide (d ≠ '\n') && rmatch ceq (.anyStar :: ts) ds)
termination_by ts s => (s.length, ts.length)

/-- Case-sensitive character comparison (LIKE). -/
def charEq (a b : Char) : Bool := a == b

/-- Case-insensitive character comparison (`re.IGNORECASE`, ILIKE). -/
def charEqCI (a b : Char) : Bool := a.toLower == b.toLower

/-- The `like_operator` function: translate the pattern, then full-match
the text. -/
def like_operator (text pattern : String) : Except PgError Bool :=
  match like_pattern_to_regex pattern with
  | .error e => .error e
  | .ok regex => .ok (rmatch charEq (parseRegexChars regex) text.data)

/-- The `ilike_operator` function: as `like_operator`, case-insensitive. -/
def ilike_operator (text pattern : String) : Except PgError Bool :=
  match like_pattern_to_regex pattern with
  | .error e => .error e
  | .ok regex => .ok (rmatch charEqCI (parseRegexChars regex) text.data)

/-- Length of the trailing run of backslashes of a pattern.  The pattern
"ends in an unescaped backslash" exactly when this count is odd: the
escape scanner leaves the `escaped` flag set at the end of the pattern
exactly in that case (proved below). -/
def trailingBackslashCount (pattern : String) : Nat :=
  (pattern.data.reverse.takeWhile (fun c => c == '\\')).length

/-- The final state of the `escaped` flag after scanning the pattern
(the loop of `_like_pattern_to_regex`, state only). -/
def finalEscaped : List Char → Bool → Bool
  | [], esc => esc
  | c :: rest, esc => finalEscaped rest (if esc then false else c == '\\')

/-! The join algorithms `_inner_merge_rows`, `_left_merge_rows`,
`_right_merge_rows`, `_full_merge_rows`, abstracted over the bound-row
representations.  Inside one `JoinExpr` the left rows are dicts over the
left sources and the right rows dicts over the right sources, and
`QueryTables.add` forbids a source appearing on both sides, so the key
sets are disjoint and the dict union `{**l, **r}` (which then equals
`{**r, **l}`) is modelled by the injective pairing `merge l r`.  The
compiled quals expression is modelled as the Boolean predicate `qual` on
merged rows (an erroring quals aborts the whole query; the executor's
effectful variant appears further below). -/

/-- Model of `_inner_merge_rows`: Cartesian product filtered by the quals. -/
def innerMergeRows (merge : α → β → γ) (qual : γ → Bool) (L : List α) (R : List β) : List γ :=
  (L.flatMap fun l => R.map fun r => merge l r).filter qual

/-- Model of `_left_merge_rows`: for each left row, all matching merged rows, or
the left row padded with the right side's NULL row when none matched. -/
def leftMergeRows (merge : α → β → γ) (qual : γ → Bool) (L : List α) (R : List β)
    (nullR : β) : List γ :=
  L.flatMap fun l =>
    let ms := (R.map fun r => merge l r).filter qual
    if ms.isEmpty then [merge l nullR] else ms

/-- Model of `_right_merge_rows`: "Sneaky. Swap left and right." - the left join
with the two sides (and the merge direction) swapped. -/
def rightMergeRows (merge2 : β → α → γ) (qual : γ → Bool) (L : List α) (R : List β)
    (nullL : α) : List γ :=
  leftMergeRows merge2 qual R L nullL

/-- Python `set.discard`, on a duplicate-free list model of a set. -/
def pySetDiscard [DecidableEq β] (missing : List β) (r : β) : List β :=
  missing.filter (fun x => decide (x ≠ r))

/-- Inner loop of `_full_merge_rows` for one left row: emit matches,
discard each matched right row from the missing set, track whether the
left row matched at all. -/
def fullScanRight [DecidableEq β] (merge : α → β → γ) (qual : γ → Bool) (l : α) :
    List β → List β → List γ × List β × Bool
  | [], missing => ([], missing, false)
  | r :: rs, missing =>
    if qual (merge l r) then
      let res := fullScanRight merge qual l rs (pySetDiscard missing r)
      (merge l r :: res.1, res.2.1, true)
    else fullScanRight merge qual l rs missing

/-- Outer loop of `_full_merge_rows`: the left-join part, threading the
missing-right set. -/
def fullScanLeft [DecidableEq β] (merge : α → β → γ) (qual : γ → Bool) (nullR : β) :
    List α → List β → List β → List γ × List β
  | [], _, missing => ([], missing)
  | l :: ls, R, missing =>
    let step := fullScanRight merge qual l R missing
    let rest := fullScanLeft merge qual nullR ls R step.2.1
    ((step.1 ++ (if step.2.2 then [] else [merge l nullR])) ++ rest.1, rest.2)

/-- Model of `_full_merge_rows`: the left-join output, then every right row still
in the missing set padded with the left side's NULL row.  The missing
set starts as `set(right_rows)` - duplicate right rows collapse; it is
modelled as the deduplicated list, emitted in first-occurrence order
(Python set iteration order is unspecified; every property proved about
this function is insensitive to that order). -/
def fullMergeRows [DecidableEq β] (merge : α → β → γ) (qual : γ → Bool) (L : List α)
    (R : List β) (nullL : α) (nullR : β) : List γ :=
  let scan := fullScanLeft merge qual nullR L R R.dedup
  scan.1 ++ scan.2.map fun r => merge nullL r

/-- The merged rows of one left row that satisfy the quals (the matches
of the inner loop of the left/full join). -/
def matchesOf (merge : α → β → γ) (qual : γ → Bool) (l : α) (R : List β) : List γ :=
  (R.map fun r => merge l r).filter qual

/-! The ORDER BY sort-key model (`SortByStrategy`, `SortByKey`) and the
host stable sort. -/

/-- The four derived fields of `SortByStrategy`. -/
structure SortByStrategy where
  asc : Bool
  desc : Bool
  nulls_last : Bool
  nulls_first : Bool
deriving DecidableEq

/-- Construction of a `SortByStrategy` from the parser's `sortby_dir`
(0 default, 1 ASC, 2 DESC) and `sortby_nulls` (0 default, 1 FIRST,
2 LAST), computing the attrs defaults: `asc = dir != 2`,
`desc = not asc`, `nulls_last = asc if nulls == 0 else nulls == 2`,
`nulls_first = not nulls_last`. -/
def sortByStrategy (sortby_dir sortby_nulls : Nat) : SortByStrategy :=
  let asc : Bool := sortby_dir != 2
  let nulls_last : Bool := if sortby_nulls = 0 then asc else sortby_nulls == 2
  ⟨asc, !asc, nulls_last, !nulls_last⟩

/-- Model of `SortByKey.__lt__`: equal values are not less-than; a left NULL is
less-than exactly when nulls-first, a right NULL exactly when
nulls-last; otherwise the host `<` on the values, compared against the
direction. -/
def sortKeyLt (strat : SortByStrategy) (a b : Value) : Except PgError Bool :=
  if pyEqB a b then .ok false
  else if a = .null then .ok strat.nulls_first
  else if b = .null then .ok strat.nulls_last
  else
    match pyLt a b with
    | .error e => .error e
    | .ok lt => .ok (lt == strat.asc)

/-- Total Boolean form of `sortKeyLt` used inside the host sort; a host
TypeError raised mid-sort aborts the query in Python, and no property
proved below depends on the comparator's behaviour there. -/
def sortKeyLtB (strat : SortByStrategy) (a b : Value) : Bool :=
  match sortKeyLt strat a b with
  | .ok lt => lt
  | .error _ => false

/-- Lexicographic comparison of composite sort keys (Python tuple `<`
over `SortByKey` wrappers; the keys of one sort always have equal
length). -/
def keyListLt : List (SortByStrategy × Value) → List (SortByStrategy × Value) → Bool
  | [], [] => false
  | [], _ :: _ => true
  | _ :: _, [] => false
  | x :: xs, y :: ys => if pyEqB x.2 y.2 then keyListLt xs ys else sortKeyLtB x.1 x.2 y.2

/-- Stable insertion of an element into a sorted list: placed before the
first strictly greater element, after equals (stability). -/
def insertSorted (lt : α → α → Bool) (x : α) : List α → List α
  | [] => [x]
  | y :: ys => if lt x y then x :: y :: ys else y :: insertSorted lt x ys

/-- The host `sorted`: a stable ascending sort driven by `<` only.
Timsort is modelled by stable insertion sort - any stable sort yields
the same list for a strict-weak-order comparator, and the only fact the
theorems below use is that sorting preserves length. -/
def pySorted (lt : α → α → Bool) (l : List α) : List α :=
  l.foldl (fun acc x => insertSorted lt x acc) []

/-! The catalog model: `Table`, `Schema`, `Database`, `create_pg_catalog`
(spec sections 3 and 4.1), and row construction (`AbstractRow`). -/

/-- A stored row: the Python dict from column name to value (each key
occurs once; Python dict equality ignores order). -/
abbrev PgRow := List (String × Value)

/-- Model of `Table`: schema name, relation name, row type (the ordered column
names of `generate_rowtype`), stored rows. -/
structure Table where
  schema : String
  relname : String
  columns : List String
  rows : List PgRow
deriving DecidableEq

/-- Model of `Table.insert`: a new table with the rows appended. -/
def Table.insert (t : Table) (new : List PgRow) : Table :=
  { t with rows := t.rows ++ new }

/-- Model of `AbstractRow.null_row`: every column of the row type mapped to NULL. -/
def Table.null_row (t : Table) : PgRow :=
  t.columns.map fun c => (c, Value.null)

/-- Python dict insertion: update the value in place if the key exists,
else append the new pair. -/
def pyDictInsert (d : List (String × Value)) (k : String) (v : Value) : List (String × Value) :=
  if d.any (fun kv => kv.1 == k) then d.map (fun kv => if kv.1 == k then (k, v) else kv)
  else d ++ [(k, v)]

/-- Build a Python dict from a pair sequence (`dict(zip(...))`): later
values win for duplicate keys. -/
def pyDictOfPairs (pairs : List (String × Value)) : List (String × Value) :=
  pairs.foldl (fun d kv => pyDictInsert d kv.1 kv.2) []

/-- Model of `AbstractRow.__init__`: build the frozendict, then `_address_extra` -
raise `UndefinedColumn` if any key is not among the row type's columns.
(`_address_missing` is never invoked by the constructor.) -/
def mkRow (columns : List String) (pairs : List (String × Value)) : Except PgError PgRow :=
  let d := pyDictOfPairs pairs
  if d.all (fun kv => columns.contains kv.1) then .ok d
  else .error .undefinedColumn

/-- Model of `AbstractRow._address_missing`: the NOT NULL enforcement branch.  It
exists in the source but no caller reaches it; it is included here only
to model that branch. -/
def address_missing (columns : List String) (row : PgRow) : Except PgError Unit :=
  if columns.all (fun c => row.any (fun kv => kv.1 == c)) then .ok ()
  else .error .notNullViolation

/-- Model of `PgType`: a converter plus its human description. -/
structure PgType where
  converter : Value → Except PgError Value
  description : String

/-- Model of `Function`: a host callable. -/
structure PgFunction where
  fn : List Value → Except PgError Value

/-- Model of `Schema`: tables, functions and types, each a name-keyed dict. -/
structure Schema where
  tables : List (String × Table)
  functions : List (String × PgFunction)
  types : List (String × PgType)

/-- The empty schema (`Schema()`). -/
def Schema.empty : Schema := ⟨[], [], []⟩

/-- Model of `create_pg_catalog`: the built-in `length` function and the `bool`,
`integer`, `int4` and `text` type converters. -/
def create_pg_catalog : Schema :=
  { tables := [],
    functions := [("length", ⟨py_len⟩)],
    types :=
      [("bool", ⟨pg_bool, "boolean true or false"⟩),
       ("integer", ⟨py_int, "-2 billion to 2 billion integer, 4-byte storage"⟩),
       ("int4", ⟨py_int, "-2 billion to 2 billion integer, 4-byte storage"⟩),
       ("text", ⟨pg_text, "variable-length string, no limit specified"⟩)] }

/-- Model of `Database`: the schema-name-keyed dict of schemas. -/
structure Database where
  schemas : List (String × Schema)

/-- The default `Database`: an empty `public` schema and the `pg_catalog`
schema. -/
def defaultDatabase : Database :=
  ⟨[("public", Schema.empty), ("pg_catalog", create_pg_catalog)]⟩

/-- Update an entry of a name-keyed dict, appending when absent. -/
def assocSet (l : List (String × σ)) (k : String) (v : σ) : List (String × σ) :=
  if l.any (fun kv => kv.1 == k) then l.map (fun kv => if kv.1 == k then (k, v) else kv)
  else l ++ [(k, v)]

/-- Model of `Database._update_table`: replace (or add) the table in its schema,
silently creating the schema when absent (the noted leniency). -/
def Database.update_table (db : Database) (t : Table) : Database :=
  let schema :=
    match db.schemas.find? (fun kv => kv.1 == t.schema) with
    | some kv => kv.2
    | none => Schema.empty
  ⟨assocSet db.schemas t.schema { schema with tables := assocSet schema.tables t.relname t }⟩

/-- Model of `Database.create_table` delegates to `_update_table`. -/
def Database.create_table (db : Database) (t : Table) : Database :=
  db.update_table t

/-- Model of `Database._get_table`: without a schema, consult the search path
(именно `['public']`); with a schema, a direct lookup, any KeyError
becoming `UndefinedTable`. -/
def Database.get_table (db : Database) (relname : String) (schema_name : Option String) :
    Except PgError Table :=
  match schema_name with
  | none =>
    match db.schemas.find? (fun kv => kv.1 == "public") with
    | none => .error (.hostError .keyError)
    | some kv =>
      match kv.2.tables.find? (fun tv => tv.1 == relname) with
      | some tv => .ok tv.2
      | none => .error .undefinedTable
  | some sn =>
    match db.schemas.find? (fun kv => kv.1 == sn) with
    | none => .error .undefinedTable
    | some kv =>
      match kv.2.tables.find? (fun tv => tv.1 == relname) with
      | none => .error .undefinedTable
      | some tv => .ok tv.2

/-- Model of `Database._get_schema`: missing schema raises `InvalidSchemaName`. -/
def Database.get_schema (db : Database) (schema_name : String) : Except PgError Schema :=
  match db.schemas.find? (fun kv => kv.1 == schema_name) with
  | some kv => .ok kv.2
  | none => .error .invalidSchemaName

/-- Model of `Database._get_function`: default schema `pg_catalog`; missing
function raises `UndefinedFunction`. -/
def Database.get_function (db : Database) (func_name : String) (schema_name : Option String) :
    Except PgError PgFunction :=
  let sn := match schema_name with | none => "pg_catalog" | some s => s
  match db.get_schema sn with
  | .error e => .error e
  | .ok schema =>
    match schema.functions.find? (fun kv => kv.1 == func_name) with
    | some kv => .ok kv.2
    | none => .error .undefinedFunction

/-- Model of `Database._get_type`: default schema `pg_catalog`; missing type
raises `UndefinedObject`. -/
def Database.get_type (db : Database) (type_name : String) (schema_name : Option String) :
    Except PgError PgType :=
  let sn := match schema_name with | none => "pg_catalog" | some s => s
  match db.get_schema sn with
  | .error e => .error e
  | .ok schema =>
    match schema.types.find? (fun kv => kv.1 == type_name) with
    | some kv => .ok kv.2
    | none => .error .undefinedObject

/-! The name-resolution context `QueryTables` (spec section 4.2) and the
bound-row representation. -/

/-- A source key: the `(table, alias_or_none)` pair the executor keys
bound rows by. -/
abbrev SrcKey := Table × Option String

/-- A bound row: the dict from source key to that source's current row
(each key occurs once). -/
abbrev BRow := List (SrcKey × PgRow)

/-- Model of `QueryTables`: the alias-keyed dict and the relname -> schema ->
table dict of unaliased sources. -/
structure QueryTables where
  aliases : List (String × Table)
  tables : List (String × List (String × Table))
deriving DecidableEq

/-- The empty registry (`QueryTables()`). -/
def QueryTables.empty : QueryTables := ⟨[], []⟩

/-- Model of `QueryTables.all_tables`: aliased sources first, then unaliased ones. -/
def QueryTables.all_tables (qt : QueryTables) : List SrcKey :=
  qt.aliases.map (fun kv => (kv.2, some kv.1)) ++
    qt.tables.flatMap (fun kv => kv.2.map (fun sv => (sv.2, (none : Option String))))

/-- Insert an unaliased table into the nested relname -> schema dict. -/
def tablesInsert (ts : List (String × List (String × Table))) (relname schema : String)
    (t : Table) : List (String × List (String × Table)) :=
  if ts.any (fun kv => kv.1 == relname) then
    ts.map (fun kv => if kv.1 == relname then (kv.1, kv.2 ++ [(schema, t)]) else kv)
  else ts ++ [(relname, [(schema, t)])]

/-- Model of `QueryTables.add`: register a source, rejecting duplicate aliases, an
alias colliding with a registered relname, or a repeated unaliased
`(schema, relname)` pair. -/
def QueryTables.add (qt : QueryTables) (table : Table) (al : Option String) :
    Except PgError QueryTables :=
  match al with
  | some a =>
    if qt.aliases.any (fun kv => kv.1 == a) || qt.tables.any (fun kv => kv.1 == a) then
      .error .duplicateAlias
    else .ok ⟨qt.aliases ++ [(a, table)], qt.tables⟩
  | none =>
    let schemas :=
      match qt.tables.find? (fun kv => kv.1 == table.relname) with
      | some kv => kv.2
      | none => []
    if qt.aliases.any (fun kv => kv.1 == table.relname)
        || schemas.any (fun sv => sv.1 == table.schema) then
      .error .duplicateAlias
    else .ok ⟨qt.aliases, tablesInsert qt.tables table.relname table.schema table⟩

/-- Model of `QueryTables.merge`: fold every source of the second registry into a
clone of the first with the `add` rules. -/
def QueryTables.merge (a b : QueryTables) : Except PgError QueryTables :=
  exceptFoldList (fun qt (ta : SrcKey) => qt.add ta.1 ta.2) a b.all_tables

/-- The scanning loop of `_get_source_by_column`, with its accumulator:
a second source containing the column raises `AmbiguousColumn`; no
source raises `UndefinedColumn`. -/
def get_source_by_column_aux (column : String) :
    List SrcKey → Option SrcKey → Except PgError SrcKey
  | [], none => .error .undefinedColumn
  | [], some s => .ok s
  | ta :: rest, acc =>
    if ta.1.columns.contains column then
      match acc with
      | some _ => .error .ambiguousColumn
      | none => get_source_by_column_aux column rest (some ta)
    else get_source_by_column_aux column rest acc

/-- Model of `QueryTables._get_source_by_column`. -/
def QueryTables.get_source_by_column (qt : QueryTables) (column : String) :
    Except PgError SrcKey :=
  get_source_by_column_aux column qt.all_tables none

/-- Model of `QueryTables._get_source_by_table`: an alias match wins; otherwise
the unaliased relname, ambiguous when several schemas carry it. -/
def QueryTables.get_source_by_table (qt : QueryTables) (name : String) :
    Except PgError SrcKey :=
  match qt.aliases.find? (fun kv => kv.1 == name) with
  | some kv => .ok (kv.2, some name)
  | none =>
    match qt.tables.find? (fun kv => kv.1 == name) with
    | some kv =>
      if kv.2.length > 1 then .error .ambiguousTable
      else
        match kv.2 with
        | [sv] => .ok (sv.2, none)
        | _ => .error (.hostError .valueError)
    | none => .error .undefinedTable

/-- Model of `QueryTables._get_source_by_qualified_table`. -/
def QueryTables.get_source_by_qualified_table (qt : QueryTables)
    (schema_name table_name : String) : Except PgError SrcKey :=
  match qt.tables.find? (fun kv => kv.1 == table_name) with
  | some kv =>
    match kv.2.find? (fun sv => sv.1 == schema_name) with
    | some sv => .ok (sv.2, none)
    | none => .error .undefinedTable
  | none => .error .undefinedTable

/-- Model of `QueryTables.get_column_source`: dispatch on which qualifiers were
given. -/
def QueryTables.get_column_source (qt : QueryTables) (column : String) :
    Option String → Option String → Except PgError SrcKey
  | none, _ => qt.get_source_by_column column
  | some t, none => qt.get_source_by_table t
  | some t, some s => qt.get_source_by_qualified_table s t

/-- Dispatch of `get_column_source(*column_ref)` from the reversed field
list of a `ColumnRef` (a fourth component would overflow the Python
signature: TypeError). -/
def QueryTables.get_column_source_ref (qt : QueryTables) :
    List String → Except PgError SrcKey
  | [c] => qt.get_column_source c none none
  | [c, t] => qt.get_column_source c (some t) none
  | [c, t, s] => qt.get_column_source c (some t) (some s)
  | _ => .error (.hostError .typeError)

/-- Model of `QueryTables.null_row`: every registered source mapped to its
all-NULL row. -/
def QueryTables.null_row (qt : QueryTables) : BRow :=
  qt.all_tables.map fun ta => (ta, ta.1.null_row)

/-- The sources of a registry whose row type contains the column (the
characterization the resolution theorem is stated against). -/
def columnMatches (qt : QueryTables) (column : String) : List SrcKey :=
  qt.all_tables.filter fun ta => ta.1.columns.contains column

/-- Python dict union `{**l, **r}` on bound rows: the right side wins on
common keys; each key occurs once in the result (dict equality ignores
order, so only the mapping is significant). -/
def brUnion (l r : BRow) : BRow :=
  l.filter (fun kv => !(r.any (fun kv2 => kv2.1 == kv.1))) ++ r

/-- Bound-row lookup `row[(table, alias)]`; a missing key is a host
KeyError. -/
def brLookup (row : BRow) (k : SrcKey) : Except PgError PgRow :=
  match row.find? (fun kv => kv.1 == k) with
  | some kv => .ok kv.2
  | none => .error (.hostError .keyError)

/-- Row lookup `row[column]`; a missing column is a host KeyError. -/
def rowLookup (row : PgRow) (column : String) : Except PgError Value :=
  match row.find? (fun kv => kv.1 == column) with
  | some kv => .ok kv.2
  | none => .error (.hostError .keyError)

/-! The expression AST and compiler (`parse_select_expr` and friends,
spec section 4.3). -/

/-- Expression AST nodes as consumed from the parser.  `columnRef` and
`typecast`/`funcCall` name lists are in source order (the code reverses
them to dispatch); `aconst` carries the literal value. -/
inductive Expr where
  | aconst (v : Value)
  | columnRef (fields : List String)
  | aexpr (symbol : String) (lexpr rexpr : Expr)
  | typecast (names : List String) (arg : Expr)
  | funcCall (funcname : List String) (args : List Expr)

/-- A compiled expression: the code's `Element` (an evaluation closure)
or `Constant` (a captured value), each with an optional display name. -/
inductive Compiled where
  | element (f : BRow → Except PgError Value) (nm : Option String)
  | constant (v : Value) (nm : Option String)

/-- Evaluation of a compiled expression on a bound row. -/
def Compiled.eval : Compiled → BRow → Except PgError Value
  | .element f _, row => f row
  | .constant v _, _ => .ok v

/-- The display name of a compiled expression. -/
def Compiled.name : Compiled → Option String
  | .element _ nm => nm
  | .constant _ nm => nm

/-- The `.value` attribute read by `simple_select`: the captured value of
a `Constant`, but the evaluation lambda itself for an `Element` - an
opaque host function object, modelled by `Value.hostClosure`. -/
def Compiled.value : Compiled → Value
  | .element _ _ => .hostClosure
  | .constant v _ => v

/-- The LIKE-family operator wrapper used by `_get_aexpr_op`: the pattern
is translated first (so a bad escape surfaces before any argument
TypeError), then both operands must be strings; `negate` models the
`not_` decorator of `!~~` and `!~~*`. -/
def like_operator_value (op : String → String → Except PgError Bool) (negate : Bool)
    (a b : Value) : Except PgError Value :=
  match b with
  | .str pattern =>
    match like_pattern_to_regex pattern with
    | .error e => .error e
    | .ok _ =>
      match a with
      | .str text =>
        match op text pattern with
        | .error e => .error e
        | .ok r => .ok (.bool (xor negate r))
      | _ => .error (.hostError .typeError)
  | _ => .error (.hostError .typeError)

/-- Model of `_get_aexpr_op`: the binary operator table; unknown symbols raise
NotImplementedError. -/
def get_aexpr_op (symbol : String) : Except PgError (Value → Value → Except PgError Value) :=
  match symbol with
  | "=" => .ok fun a b => .ok (.bool (pyEqB a b))
  | "<>" => .ok fun a b => .ok (.bool (!pyEqB a b))
  | "!=" => .ok fun a b => .ok (.bool (!pyEqB a b))
  | ">" => .ok fun a b => (pyLt b a).map Value.bool
  | ">=" => .ok fun a b => (pyLe b a).map Value.bool
  | "<" => .ok fun a b => (pyLt a b).map Value.bool
  | "<=" => .ok fun a b => (pyLe a b).map Value.bool
  | "+" => .ok pyAdd
  | "-" => .ok pySub
  | "~~" => .ok (like_operator_value like_operator false)
  | "~~*" => .ok (like_operator_value ilike_operator false)
  | "!~~" => .ok (like_operator_value like_operator true)
  | "!~~*" => .ok (like_operator_value ilike_operator true)
  | _ => .error .notImplemented

mutual

/-- Model of `Database.parse_select_expr` and its per-node helpers: compile an AST
expression against the optional name-resolution context.  Passing no
context (`simple_select` does) makes a `ColumnRef` fail with the host
AttributeError that `None.get_column_source` raises. -/
def parse_select_expr (db : Database) (sources : Option QueryTables) :
    Expr → Except PgError Compiled
  | .aconst v => .ok (.constant v none)
  | .columnRef fields =>
    match fields.getLast? with
    | none => .error (.hostError .indexError)
    | some column =>
      match sources with
      | none => .error (.hostError .attributeError)
      | some src =>
        match src.get_column_source_ref fields.reverse with
        | .error e => .error e
        | .ok source =>
          .ok (.element
            (fun row =>
              match brLookup row source with
              | .error e => .error e
              | .ok prow => rowLookup prow column)
            (some column))
  | .aexpr symbol lexpr rexpr =>
    match parse_select_expr db sources lexpr with
    | .error e => .error e
    | .ok le =>
      match parse_select_expr db sources rexpr with
      | .error e => .error e
      | .ok re =>
        match get_aexpr_op symbol with
        | .error e => .error e
        | .ok operation =>
          .ok (.element
            (fun row =>
              match le.eval row with
              | .error e => .error e
              | .ok lv =>
                match re.eval row with
                | .error e => .error e
                | .ok rv => operation lv rv)
            none)
  | .typecast names arg =>
    match names.getLast? with
    | none => .error (.hostError .indexError)
    | some type_name =>
      match (match names.reverse with
             | [ty] => db.get_type ty none
             | [ty, sn] => db.get_type ty (some sn)
             | _ => .error (.hostError .typeError)) with
      | .error e => .error e
      | .ok pgtype =>
        match parse_select_expr db sources arg with
        | .error e => .error e
        | .ok elem =>
          .ok (.element
            (fun row =>
              match elem.eval row with
              | .error e => .error e
              | .ok v => pgtype.converter v)
            (some type_name))
  | .funcCall funcname args =>
    match (match funcname.reverse with
           | [fn] => db.get_function fn none
           | [fn, sn] => db.get_function fn (some sn)
           | _ => .error (.hostError .typeError)) with
    | .error e => .error e
    | .ok func =>
      match parse_select_expr_list db sources args with
      | .error e => .error e
      | .ok cargs =>
        match funcname.getLast? with
        | none => .error (.hostError .indexError)
        | some nm =>
          .ok (.element
            (fun row =>
              match exceptMapList (fun c => Compiled.eval c row) cargs with
              | .error e => .error e
              | .ok vals => func.fn vals)
            (some nm))

/-- Compile a list of argument expressions left to right. -/
def parse_select_expr_list (db : Database) (sources : Option QueryTables) :
    List Expr → Except PgError (List Compiled)
  | [] => .ok []
  | e :: es =>
    match parse_select_expr db sources e with
    | .error e0 => .error e0
    | .ok c =>
      match parse_select_expr_list db sources es with
      | .error e0 => .error e0
      | .ok cs => .ok (c :: cs)

end

/-- Model of `_get_sortby_element`: only `ColumnRef` sort keys are supported; a
non-integer constant is a syntax error, an integer constant (positional
sort) and everything else NotImplementedError. -/
def get_sortby_element (db : Database) (sources : QueryTables) :
    Expr → Except PgError Compiled
  | .aconst v =>
    match v with
    | .int _ => .error .notImplemented
    | _ => .error .postgresSyntaxError
  | .columnRef fields => parse_select_expr db (some sources) (.columnRef fields)
  | _ => .error .notImplemented

/-! The from-clause planner and the executor-level (effectful) join
algorithms on bound rows (spec section 4.5).  These are the same four
algorithms as above, now with the dict-union merge and the compiled
quals expression evaluated in `Except` per merged row. -/

/-- Model of `_merge_rows`: the Cartesian product of two bound-row streams. -/
def merge_rows (left_rows right_rows : List BRow) : List BRow :=
  left_rows.flatMap fun l => right_rows.map fun r => brUnion l r

/-- Effectful `_inner_merge_rows`. -/
def innerMergeRowsE (qual : BRow → Except PgError Bool) (L R : List BRow) :
    Except PgError (List BRow) :=
  exceptFilterList qual (merge_rows L R)

/-- Inner loop of the effectful left join for one left row: the matching
merged rows and whether any matched. -/
def leftScanE (qual : BRow → Except PgError Bool) (l : BRow) :
    List BRow → Except PgError (List BRow × Bool)
  | [] => .ok ([], false)
  | r :: rs =>
    match qual (brUnion l r) with
    | .error e => .error e
    | .ok q =>
      match leftScanE qual l rs with
      | .error e => .error e
      | .ok res => .ok (if q then (brUnion l r :: res.1, true) else res)

/-- Effectful `_left_merge_rows`. -/
def leftMergeRowsE (qual : BRow → Except PgError Bool) (nullR : BRow) :
    List BRow → List BRow → Except PgError (List BRow)
  | [], _ => .ok []
  | l :: ls, R =>
    match leftScanE qual l R with
    | .error e => .error e
    | .ok step =>
      match leftMergeRowsE qual nullR ls R with
      | .error e => .error e
      | .ok rest => .ok ((if step.2 then step.1 else [brUnion l nullR]) ++ rest)

/-- Effectful `_right_merge_rows`: the left join with the sides swapped. -/
def rightMergeRowsE (qual : BRow → Except PgError Bool) (nullL : BRow)
    (L R : List BRow) : Except PgError (List BRow) :=
  leftMergeRowsE qual nullL R L

/-- Inner loop of the effectful full join, threading the missing set. -/
def fullScanE (qual : BRow → Except PgError Bool) (l : BRow) :
    List BRow → List BRow → Except PgError (List BRow × List BRow × Bool)
  | [], missing => .ok ([], missing, false)
  | r :: rs, missing =>
    match qual (brUnion l r) with
    | .error e => .error e
    | .ok q =>
      if q then
        match fullScanE qual l rs (missing.filter (fun x => decide (x ≠ r))) with
        | .error e => .error e
        | .ok res => .ok (brUnion l r :: res.1, res.2.1, true)
      else fullScanE qual l rs missing

/-- Outer loop of the effectful full join. -/
def fullLeftE (qual : BRow → Except PgError Bool) (nullR : BRow) :
    List BRow → List BRow → List BRow → Except PgError (List BRow × List BRow)
  | [], _, missing => .ok ([], missing)
  | l :: ls, R, missing =>
    match fullScanE qual l R missing with
    | .error e => .error e
    | .ok step =>
      match fullLeftE qual nullR ls R step.2.1 with
      | .error e => .error e
      | .ok rest =>
        .ok ((step.1 ++ (if step.2.2 then [] else [brUnion l nullR])) ++ rest.1, rest.2)

/-- Effectful `_full_merge_rows`. -/
def fullMergeRowsE (qual : BRow → Except PgError Bool) (nullL nullR : BRow)
    (L R : List BRow) : Except PgError (List BRow) :=
  match fullLeftE qual nullR L R R.dedup with
  | .error e => .error e
  | .ok scan => .ok (scan.1 ++ scan.2.map fun r => brUnion nullL r)

/-- From-clause AST: a base relation (`RangeVar`) or a `JoinExpr` with
the parser's `jointype` code (0 inner, 1 left, 2 full, 3 right) and its
optional ON condition. -/
inductive FromClause where
  | rangeVar (schemaname : Option String) (relname : String) (al : Option String)
  | joinExpr (larg rarg : FromClause) (jointype : Nat) (quals : Option Expr)

/-- Model of `_parse_from_clauses` together with `_merge_clauses`: plan a
from-clause node into `(QueryTables, bound-row list)`.  A non-inner join
without quals is the asserted-impossible case; an out-of-range jointype
is the Python dict KeyError. -/
def parse_from_clauses (db : Database) : FromClause → Except PgError (QueryTables × List BRow)
  | .rangeVar schemaname relname al =>
    match db.get_table relname schemaname with
    | .error e => .error e
    | .ok table =>
      match QueryTables.empty.add table al with
      | .error e => .error e
      | .ok qt => .ok (qt, table.rows.map fun r => [((table, al), r)])
  | .joinExpr larg rarg jointype quals =>
    match parse_from_clauses db larg with
    | .error e => .error e
    | .ok lres =>
      match parse_from_clauses db rarg with
      | .error e => .error e
      | .ok rres =>
        match QueryTables.merge lres.1 rres.1 with
        | .error e => .error e
        | .ok sources =>
          match quals with
          | none =>
            if jointype = 0 then .ok (sources, merge_rows lres.2 rres.2)
            else .error (.hostError .assertionError)
          | some q =>
            match parse_select_expr db (some sources) q with
            | .error e => .error e
            | .ok qexpr =>
              let qual : BRow → Except PgError Bool := fun row =>
                match qexpr.eval row with
                | .error e => .error e
                | .ok v => .ok (pyTruthy v)
              match (match jointype with
                     | 0 => innerMergeRowsE qual lres.2 rres.2
                     | 1 => leftMergeRowsE qual rres.1.null_row lres.2 rres.2
                     | 2 => fullMergeRowsE qual lres.1.null_row rres.1.null_row lres.2 rres.2
                     | 3 => rightMergeRowsE qual lres.1.null_row lres.2 rres.2
                     | _ => .error (.hostError .keyError)) with
              | .error e => .error e
              | .ok rows => .ok (sources, rows)

/-! The SELECT / CREATE / INSERT executors and the statement dispatcher
(spec sections 4.6 and 4.8). -/

/-- A select target: the expression and the optional `AS` name. -/
structure ResTarget where
  val : Expr
  name : Option String

/-- A sort spec: expression, direction code and nulls-placement code. -/
structure SortBy where
  node : Expr
  sortby_dir : Nat
  sortby_nulls : Nat

/-- A `SelectStmt` restricted to its implemented fields: comma-joined
from clauses, target list, optional WHERE, sort clause (empty = none). -/
structure SelectStmt where
  from_clause : List FromClause
  target_list : List ResTarget
  where_clause : Option Expr
  sort_clause : List SortBy

/-- Model of `ResultSet`: result column names and the materialized row tuples. -/
structure ResultSet where
  row_names : List String
  rows : List (List Value)
deriving DecidableEq

/-- Model of `_apply_sort_expr`: compile each sort spec, key every row, stable-sort
by the composite key. -/
def apply_sort_expr (db : Database) (sort_clause : List SortBy) (rows : List BRow)
    (sources : QueryTables) : Except PgError (List BRow) :=
  match exceptMapList
      (fun sb =>
        match get_sortby_element db sources sb.node with
        | .error e => .error e
        | .ok elem => .ok (sortByStrategy sb.sortby_dir sb.sortby_nulls, elem))
      sort_clause with
  | .error e => .error e
  | .ok strats =>
    match exceptMapList
        (fun (row : BRow) =>
          match exceptMapList
              (fun (se : SortByStrategy × Compiled) =>
                match Compiled.eval se.2 row with
                | .error e => .error e
                | .ok v => .ok ((se.1 : SortByStrategy), v))
              strats with
          | .error e => .error e
          | .ok key => .ok (key, row))
        rows with
    | .error e => .error e
    | .ok keyed =>
      .ok ((pySorted (fun a b => keyListLt a.1 b.1) keyed).map fun kr => kr.2)

/-- Model of `_handle_select_statement`: seed an empty registry and the single
empty bound row, fold the comma-joined from clauses, compile the
targets (name: explicit AS, else inferred, else `?column?`), filter by
WHERE truthiness, sort, then evaluate the targets per row. -/
def handle_select_statement (db : Database) (stmt : SelectStmt) : Except PgError ResultSet :=
  match exceptFoldList
      (fun (acc : QueryTables × List BRow) clause =>
        match parse_from_clauses db clause with
        | .error e => .error e
        | .ok agg =>
          match QueryTables.merge agg.1 acc.1 with
          | .error e => .error e
          | .ok src => .ok (src, merge_rows acc.2 agg.2))
      (QueryTables.empty, ([[]] : List BRow)) stmt.from_clause with
  | .error e => .error e
  | .ok fr =>
    match exceptMapList
        (fun (t : ResTarget) =>
          match parse_select_expr db (some fr.1) t.val with
          | .error e => .error e
          | .ok elem =>
            .ok (elem, match t.name with
                       | some nm => nm
                       | none => match elem.name with
                                 | none => "?column?"
                                 | some nm => nm))
        stmt.target_list with
    | .error e => .error e
    | .ok targets =>
      match (match stmt.where_clause with
             | none => Except.ok fr.2
             | some w =>
               match parse_select_expr db (some fr.1) w with
               | .error e => Except.error e
               | .ok wexpr =>
                 exceptFilterList
                   (fun row =>
                     match wexpr.eval row with
                     | .error e => .error e
                     | .ok v => .ok (pyTruthy v))
                   fr.2) with
      | .error e => .error e
      | .ok rows2 =>
        match (match stmt.sort_clause with
               | [] => Except.ok rows2
               | _ => apply_sort_expr db stmt.sort_clause rows2 fr.1) with
        | .error e => .error e
        | .ok rows3 =>
          match exceptMapList
              (fun (row : BRow) =>
                exceptMapList (fun (tg : Compiled × String) => Compiled.eval tg.1 row) targets)
              rows3 with
          | .error e => .error e
          | .ok result_rows => .ok ⟨targets.map (fun (tg : Compiled × String) => tg.2), result_rows⟩

/-- Model of `_handle_create_statement`: default schema `public`, row type from
the declared column names, an empty row list. -/
def handle_create_statement (db : Database) (schemaname : Option String) (relname : String)
    (columns : List String) : Database :=
  db.create_table
    ⟨(match schemaname with | some s => s | none => "public"), relname, columns, []⟩

/-- Model of `_handle_insert_statement`: resolve the target table, then per VALUES
row compile each element with no sources, read its `.value`, zip with
the explicit column names and construct the row (which validates extra
columns), finally append and store the new table. -/
def handle_insert_statement (db : Database) (schemaname : Option String) (relname : String)
    (cols : List String) (values : List (List Expr)) : Except PgError Database :=
  match db.get_table relname schemaname with
  | .error e => .error e
  | .ok table =>
    match exceptMapList
        (fun (row : List Expr) =>
          match exceptMapList
              (fun e =>
                match parse_select_expr db none e with
                | .error e0 => .error e0
                | .ok c => .ok c.value)
              row with
          | .error e0 => .error e0
          | .ok vals => mkRow table.columns (cols.zip vals))
        values with
    | .error e => .error e
    | .ok newRows => .ok (db.update_table (table.insert newRows))

/-- Compile an expression and evaluate it on a bound row: the composition
a select target (in particular a TypeCast) undergoes in the pipeline. -/
def compile_eval (db : Database) (sources : Option QueryTables) (e : Expr) (row : BRow) :
    Except PgError Value :=
  match parse_select_expr db sources e with
  | .error e0 => .error e0
  | .ok c => c.eval row

/-- A parsed statement, as dispatched by `QUERY_HANDLERS`. -/
inductive Statement where
  | createStmt (schemaname : Option String) (relname : String) (columns : List String)
  | insertStmt (schemaname : Option String) (relname : String) (cols : List String)
      (values : List (List Expr))
  | selectStmt (stmt : SelectStmt)

/-- Model of `MockDatabase._execute_statement`, in state-passing form: the new
current `Database` snapshot paired with the statement's result (CREATE
and INSERT return none).  The SELECT handler never writes the snapshot. -/
def execute_statement (db : Database) : Statement → Except PgError (Database × Option ResultSet)
  | .createStmt sn rn cols => .ok (handle_create_statement db sn rn cols, none)
  | .insertStmt sn rn cols vals =>
    match handle_insert_statement db sn rn cols vals with
    | .error e => .error e
    | .ok db2 => .ok (db2, none)
  | .selectStmt s =>
    match handle_select_statement db s with
    | .error e => .error e
    | .ok rs => .ok (db, some rs)

/-! Theorems.  Helper lemmas come first, then one theorem per claim
(with its witness or counterexample where required). -/

/-- A non-empty prefix of `"false"` cannot be a prefix of `"true"`. -/
theorem prefix_false_not_true (v : List Char) (h1 : v ≠ [])
    (h2 : v.isPrefixOf (("false").data)) : v.isPrefixOf (("true").data) = false := by
  match v with
  | [] => exact absurd rfl h1
  | c :: rest =>
    simp only [List.isPrefixOf, Bool.and_eq_true, beq_iff_eq] at h2 ⊢
    rcases h2 with ⟨hc, _⟩
    subst hc
    simp

/-- C4: Casting a value to bool: NULL returns NULL; a string whose
trimmed, lower-cased form is a non-empty prefix of "true" yields true
and a non-empty prefix of "false" yields false, and any other string
raises InvalidTextRepresentation; an integer yields true iff nonzero. -/
theorem c4_pg_bool_cast :
    pg_bool .null = .ok .null
  ∧ (∀ s : String, pyLower (pyStrip s) ≠ [] →
      (pyLower (pyStrip s)).isPrefixOf (("true").data) →
      pg_bool (.str s) = .ok (.bool true))
  ∧ (∀ s : String, pyLower (pyStrip s) ≠ [] →
      (pyLower (pyStrip s)).isPrefixOf (("false").data) →
      pg_bool (.str s) = .ok (.bool false))
  ∧ (∀ s : String, (pyLower (pyStrip s) = [] ∨
      (¬ (pyLower (pyStrip s)).isPrefixOf (("true").data)
        ∧ ¬ (pyLower (pyStrip s)).isPrefixOf (("false").data))) →
      pg_bool (.str s) = .error .invalidTextRepresentation)
  ∧ (∀ n : Int, pg_bool (.int n) = .ok (.bool (n != 0))) := by
  refine ⟨rfl, ?_, ?_, ?_, fun n => rfl⟩
  · intro s h1 h2
    simp only [pg_bool]
    rw [if_pos ⟨h1, h2⟩]
  · intro s h1 h2
    have hnt := prefix_false_not_true _ h1 h2
    simp only [pg_bool]
    rw [if_neg (by simp [hnt]), if_pos ⟨h1, h2⟩]
  · intro s h
    simp only [pg_bool]
    rcases h with h | ⟨h1, h2⟩
    · rw [if_neg (by simp [h]), if_neg (by simp [h])]
    · rw [if_neg (by simp [h1]), if_neg (by simp [h2])]

/-- Witness for C4 at concrete inputs. -/
theorem c4_pg_bool_cast_witness :
    pg_bool (.str (" tRu ")) = .ok (.bool true)
  ∧ pg_bool (.str (" fAlS ")) = .ok (.bool false)
  ∧ pg_bool (.str ("not a boolean")) = .error .invalidTextRepresentation
  ∧ pg_bool (.int 5) = .ok (.bool true) :=
  ⟨c4_pg_bool_cast.2.1 (" tRu ") (by decide) (by decide),
   c4_pg_bool_cast.2.2.1 (" fAlS ") (by decide) (by decide),
   c4_pg_bool_cast.2.2.2.1 ("not a boolean") (Or.inr (by decide)),
   c4_pg_bool_cast.2.2.2.2 5⟩

/-- C7: ORDER BY defaults and the per-key order of `SortByKey.__lt__`:
omitted direction is ascending; omitted null placement follows the
direction (asc nulls-last, desc nulls-first); equal values are never
less-than; a left NULL is first exactly under nulls-first, a right NULL
exactly under nulls-last; otherwise the underlying `<`, flipped exactly
when descending (`desc = !asc` for every constructed strategy). -/
theorem c7_sort_strategy_and_key :
    (∀ n : Nat, (sortByStrategy 0 n).asc = true)
  ∧ (∀ d : Nat, (sortByStrategy d 0).nulls_last = (sortByStrategy d 0).asc
      ∧ (sortByStrategy d 0).nulls_first = !(sortByStrategy d 0).asc)
  ∧ (∀ d n : Nat, (sortByStrategy d n).desc = !(sortByStrategy d n).asc)
  ∧ (∀ (strat : SortByStrategy) (a b : Value), pyEqB a b = true →
      sortKeyLt strat a b = .ok false)
  ∧ (∀ (strat : SortByStrategy) (b : Value), pyEqB .null b = false →
      sortKeyLt strat .null b = .ok strat.nulls_first)
  ∧ (∀ (strat : SortByStrategy) (a : Value), pyEqB a .null = false → a ≠ .null →
      sortKeyLt strat a .null = .ok strat.nulls_last)
  ∧ (∀ (strat : SortByStrategy) (a b : Value) (lt : Bool), pyEqB a b = false →
      a ≠ .null → b ≠ .null → pyLt a b = .ok lt →
      sortKeyLt strat a b = .ok (lt == strat.asc)) := by
  refine ⟨fun n => rfl, fun d => ⟨rfl, rfl⟩, fun d n => rfl, ?_, ?_, ?_, ?_⟩
  · intro strat a b h
    simp [sortKeyLt, h]
  · intro strat b h
    simp [sortKeyLt, h]
  · intro strat a h ha
    simp [sortKeyLt, h, ha]
  · intro strat a b lt h ha hb hlt
    simp [sortKeyLt, h, ha, hb, hlt]

/-- Witness for C7 at concrete inputs. -/
theorem c7_sort_strategy_and_key_witness :
    sortKeyLt (sortByStrategy 0 0) (.int 7) (.int 7) = .ok false
  ∧ sortKeyLt (sortByStrategy 2 0) .null (.int 3) = .ok true
  ∧ sortKeyLt (sortByStrategy 2 0) (.int 1) (.int 2) = .ok false :=
  ⟨c7_sort_strategy_and_key.2.2.2.1 (sortByStrategy 0 0) (.int 7) (.int 7) (by decide),
   c7_sort_strategy_and_key.2.2.2.2.1 (sortByStrategy 2 0) (.int 3) (by decide),
   c7_sort_strategy_and_key.2.2.2.2.2.2 (sortByStrategy 2 0) (.int 1) (.int 2) true
     (by decide) (by decide) (by decide) (by decide)⟩

/-- C10: Executing a SELECT statement leaves the current `Database`
snapshot unchanged: whatever the statement, a successful execution
returns the input snapshot (only CREATE TABLE and INSERT produce a new
one in `execute_statement`). -/
theorem c10_select_preserves_database (db : Database) (s : SelectStmt)
    (out : Database × Option ResultSet)
    (h : execute_statement db (.selectStmt s) = .ok out) : out.1 = db := by
  simp only [execute_statement] at h
  cases hs : handle_select_statement db s with
  | error e => rw [hs] at h; cases h
  | ok rs => rw [hs] at h; cases h; rfl

/-- Witness for C10: a concrete `SELECT 1;` returns the default snapshot
untouched. -/
theorem c10_select_preserves_database_witness :
    ((defaultDatabase, some (⟨[("?column?")], [[Value.int 1]]⟩ : ResultSet)) :
        Database × Option ResultSet).1 = defaultDatabase :=
  c10_select_preserves_database defaultDatabase
    ⟨[], [⟨.aconst (.int 1), none⟩], none, []⟩ _ rfl

/-- Characterization of the `_get_source_by_column` scanning loop in
terms of the sources whose row type contains the column. -/
theorem get_source_by_column_aux_spec (column : String) :
    ∀ (srcs : List SrcKey) (acc : Option SrcKey),
      get_source_by_column_aux column srcs acc =
        match acc, srcs.filter (fun ta => decide (column ∈ ta.1.columns)) with
        | none, [] => .error .undefinedColumn
        | none, [m] => .ok m
        | none, _ :: _ :: _ => .error .ambiguousColumn
        | some s, [] => .ok s
        | some _, _ :: _ => .error .ambiguousColumn := by
  intro srcs
  induction srcs with
  | nil => intro acc; cases acc <;> rfl
  | cons ta rest ih =>
    intro acc
    by_cases h : column ∈ ta.1.columns
    · cases acc with
      | some s => simp [get_source_by_column_aux, h, List.filter_cons]
      | none =>
        rw [show get_source_by_column_aux column (ta :: rest) none
            = get_source_by_column_aux column rest (some ta) from by
          simp [get_source_by_column_aux, h]]
        rw [ih (some ta)]
        cases hf : rest.filter (fun ta => decide (column ∈ ta.1.columns)) with
        | nil => simp [List.filter_cons, h, hf]
        | cons x xs => simp [List.filter_cons, h, hf]
    · cases acc with
      | some s =>
        rw [show get_source_by_column_aux column (ta :: rest) (some s)
            = get_source_by_column_aux column rest (some s) from by
          simp [get_source_by_column_aux, h]]
        rw [ih (some s)]
        simp [List.filter_cons, h]
      | none =>
        rw [show get_source_by_column_aux column (ta :: rest) none
            = get_source_by_column_aux column rest none from by
          simp [get_source_by_column_aux, h]]
        rw [ih none]
        simp [List.filter_cons, h]

/-- C8: Resolving an unqualified column reference against a `QueryTables`
registry returns the unique registered source whose row type contains
the column when exactly one exists, raises AmbiguousColumn when more
than one does, and UndefinedColumn when none does. -/
theorem c8_unqualified_column_resolution (qt : QueryTables) (column : String) :
    (∀ s : SrcKey, qt.get_column_source column none none = .ok s
        ↔ columnMatches qt column = [s])
  ∧ (qt.get_column_source column none none = .error .ambiguousColumn
        ↔ 2 ≤ (columnMatches qt column).length)
  ∧ (qt.get_column_source column none none = .error .undefinedColumn
        ↔ columnMatches qt column = []) := by
  have hq : qt.get_column_source column none none
      = get_source_by_column_aux column qt.all_tables none := rfl
  have hcm : columnMatches qt column
      = qt.all_tables.filter (fun ta => decide (column ∈ ta.1.columns)) := by
    simp [columnMatches]
  rw [hq, hcm, get_source_by_column_aux_spec]
  cases hf : qt.all_tables.filter (fun ta => decide (column ∈ ta.1.columns)) with
  | nil => simp
  | cons m rest =>
    cases rest with
    | nil => simp [eq_comm]
    | cons m2 rest2 => simp

/-- An error branch propagating `e` cannot produce error `E` when its
scrutinee cannot. -/
theorem error_branch_ne {α β : Type} {e E : PgError} {sub : Except PgError α}
    (hsub : sub ≠ Except.error E) (heq : sub = Except.error e) :
    (Except.error e : Except PgError β) ≠ Except.error E := by
  intro hc
  injection hc with h
  exact hsub (h ▸ heq)

/-- Key membership is preserved by Python dict insertion (the inserted
key is added; updated entries keep their key). -/
theorem pyDictInsert_keys_mem (d : List (String × Value)) (k : String) (v : Value)
    (x : String) :
    x ∈ (pyDictInsert d k v).map Prod.fst ↔ x ∈ d.map Prod.fst ∨ x = k := by
  unfold pyDictInsert
  by_cases h : d.any (fun kv => kv.1 == k)
  · rw [if_pos h]
    have hd : (d.map (fun kv => if kv.1 == k then (k, v) else kv)).map Prod.fst
        = d.map Prod.fst := by
      rw [List.map_map]
      apply List.map_congr_left
      intro kv _
      by_cases hk : kv.1 = k
      · simp [hk]
      · simp [hk]
    rw [hd]
    constructor
    · exact Or.inl
    · rintro (hx | rfl)
      · exact hx
      · rcases List.any_eq_true.mp h with ⟨kv, hkv, hbeq⟩
        have hk : kv.1 = x := by simpa using hbeq
        exact hk ▸ List.mem_map_of_mem Prod.fst hkv
  · rw [if_neg h]
    simp

/-- Key membership of a Python dict equals key membership of the pair
list it was built from. -/
theorem pyDictOfPairs_keys_mem (pairs : List (String × Value)) (x : String) :
    x ∈ (pyDictOfPairs pairs).map Prod.fst ↔ x ∈ pairs.map Prod.fst := by
  have main : ∀ (ps : List (String × Value)) (d : List (String × Value)),
      x ∈ ((ps.foldl (fun d kv => pyDictInsert d kv.1 kv.2) d).map Prod.fst)
        ↔ x ∈ d.map Prod.fst ∨ x ∈ ps.map Prod.fst := by
    intro ps
    induction ps with
    | nil => intro d; simp
    | cons p rest ih =>
      intro d
      simp only [List.foldl_cons]
      rw [ih (pyDictInsert d p.1 p.2)]
      rw [pyDictInsert_keys_mem]
      simp only [List.map_cons, List.mem_cons]
      tauto
  simpa using main pairs []

/-- Row construction fails with `UndefinedColumn` exactly when some key
of the pair list is outside the row type's columns. -/
theorem mkRow_error_iff (columns : List String) (pairs : List (String × Value)) :
    mkRow columns pairs = .error .undefinedColumn
      ↔ ∃ k ∈ pairs.map Prod.fst, k ∉ columns := by
  unfold mkRow
  by_cases h : (pyDictOfPairs pairs).all (fun kv => columns.contains kv.1)
  · rw [if_pos h]
    constructor
    · intro hc; cases hc
    · rintro ⟨k, hk, hnot⟩
      have hall := List.all_eq_true.mp h
      have hx : k ∈ (pyDictOfPairs pairs).map Prod.fst :=
        (pyDictOfPairs_keys_mem _ _).mpr hk
      rcases List.mem_map.mp hx with ⟨kv, hkv, rfl⟩
      exact absurd (by simpa using hall kv hkv) hnot
  · rw [if_neg h]
    constructor
    · intro _
      rw [List.all_eq_true] at h
      push_neg at h
      rcases h with ⟨kv, hkv, hnc⟩
      refine ⟨kv.1, (pyDictOfPairs_keys_mem _ _).mp (List.mem_map_of_mem Prod.fst hkv), ?_⟩
      simpa using hnc
    · intro _; rfl

/-- Row construction succeeds when every key is a declared column. -/
theorem mkRow_ok_of_keys (columns : List String) (pairs : List (String × Value))
    (h : ∀ k ∈ pairs.map Prod.fst, k ∈ columns) :
    mkRow columns pairs = .ok (pyDictOfPairs pairs) := by
  unfold mkRow
  rw [if_pos]
  rw [List.all_eq_true]
  intro kv hkv
  have : kv.1 ∈ pairs.map Prod.fst :=
    (pyDictOfPairs_keys_mem _ _).mp (List.mem_map_of_mem Prod.fst hkv)
  simpa using h kv.1 this

/-- Row construction never raises `NotNullViolation`. -/
theorem mkRow_ne_nnv (columns : List String) (pairs : List (String × Value)) :
    mkRow columns pairs ≠ .error .notNullViolation := by
  simp only [mkRow]
  split <;> simp

/-- Model of `_get_table` never raises `NotNullViolation`. -/
theorem get_table_ne_nnv (db : Database) (rn : String) (sn : Option String) :
    db.get_table rn sn ≠ .error .notNullViolation := by
  cases sn with
  | none =>
    simp only [Database.get_table]
    split
    · simp
    · split <;> simp
  | some s =>
    simp only [Database.get_table]
    split
    · simp
    · split <;> simp

/-- Model of `_get_schema` never raises `NotNullViolation`. -/
theorem get_schema_ne_nnv (db : Database) (sn : String) :
    db.get_schema sn ≠ .error .notNullViolation := by
  unfold Database.get_schema
  split <;> simp

/-- Model of `_get_type` never raises `NotNullViolation`. -/
theorem get_type_ne_nnv (db : Database) (tn : String) (sn : Option String) :
    db.get_type tn sn ≠ .error .notNullViolation := by
  simp only [Database.get_type]
  split
  next e heq => exact error_branch_ne (get_schema_ne_nnv _ _) heq
  next schema heq => split <;> simp

/-- Model of `_get_function` never raises `NotNullViolation`. -/
theorem get_function_ne_nnv (db : Database) (fn : String) (sn : Option String) :
    db.get_function fn sn ≠ .error .notNullViolation := by
  simp only [Database.get_function]
  split
  next e heq => exact error_branch_ne (get_schema_ne_nnv _ _) heq
  next schema heq => split <;> simp

/-- Model of `_get_source_by_column` never raises `NotNullViolation`. -/
theorem get_source_by_column_ne_nnv (qt : QueryTables) (c : String) :
    qt.get_source_by_column c ≠ .error .notNullViolation := by
  unfold QueryTables.get_source_by_column
  rw [get_source_by_column_aux_spec]
  split <;> simp

/-- Model of `_get_source_by_table` never raises `NotNullViolation`. -/
theorem get_source_by_table_ne_nnv (qt : QueryTables) (n : String) :
    qt.get_source_by_table n ≠ .error .notNullViolation := by
  unfold QueryTables.get_source_by_table
  split
  · simp
  · split
    · split
      · simp
      · split <;> simp
    · simp

/-- Model of `_get_source_by_qualified_table` never raises `NotNullViolation`. -/
theorem get_source_by_qualified_table_ne_nnv (qt : QueryTables) (s t : String) :
    qt.get_source_by_qualified_table s t ≠ .error .notNullViolation := by
  unfold QueryTables.get_source_by_qualified_table
  split
  · split <;> simp
  · simp

/-- Model of `get_column_source` never raises `NotNullViolation`. -/
theorem get_column_source_ne_nnv (qt : QueryTables) (c : String) (t s : Option String) :
    qt.get_column_source c t s ≠ .error .notNullViolation := by
  cases t with
  | none => exact get_source_by_column_ne_nnv qt c
  | some tn =>
    cases s with
    | none => exact get_source_by_table_ne_nnv qt tn
    | some sn => exact get_source_by_qualified_table_ne_nnv qt sn tn

/-- The `ColumnRef` dispatch never raises `NotNullViolation`. -/
theorem get_column_source_ref_ne_nnv (qt : QueryTables) (ref : List String) :
    qt.get_column_source_ref ref ≠ .error .notNullViolation := by
  unfold QueryTables.get_column_source_ref
  split
  · exact get_column_source_ne_nnv _ _ _ _
  · exact get_column_source_ne_nnv _ _ _ _
  · exact get_column_source_ne_nnv _ _ _ _
  · simp

/-- Model of `_get_aexpr_op` never raises `NotNullViolation`. -/
theorem get_aexpr_op_ne_nnv (symbol : String) :
    get_aexpr_op symbol ≠ .error .notNullViolation := by
  intro h
  unfold get_aexpr_op at h
  split at h
  all_goals
    first
    | exact Except.noConfusion h
    | (injection h with h2; exact PgError.noConfusion h2)

mutual

/-- Compiling an expression never raises `NotNullViolation` (the
compile-time errors are name-resolution and host errors). -/
theorem parse_select_expr_ne_nnv (db : Database) (src : Option QueryTables) :
    ∀ e : Expr, parse_select_expr db src e ≠ Except.error PgError.notNullViolation
  | .aconst _ => by simp [parse_select_expr]
  | .columnRef fields => by
    unfold parse_select_expr
    split
    · simp
    · split
      · simp
      · split
        next e heq => exact error_branch_ne (get_column_source_ref_ne_nnv _ _) heq
        next source2 heq => simp
  | .aexpr symbol l r => by
    unfold parse_select_expr
    split
    next e heq => exact error_branch_ne (parse_select_expr_ne_nnv db src l) heq
    next le heq =>
      split
      next e heq2 => exact error_branch_ne (parse_select_expr_ne_nnv db src r) heq2
      next re heq2 =>
        split
        next e heq3 => exact error_branch_ne (get_aexpr_op_ne_nnv symbol) heq3
        next op heq3 => simp
  | .typecast names arg => by
    unfold parse_select_expr
    split
    · simp
    · split
      next e heq2 =>
        split at heq2
        · exact error_branch_ne (get_type_ne_nnv _ _ _) heq2
        · exact error_branch_ne (get_type_ne_nnv _ _ _) heq2
        · exact error_branch_ne (by simp) heq2
      next pgtype heq2 =>
        split
        next e heq3 => exact error_branch_ne (parse_select_expr_ne_nnv db src arg) heq3
        next elem heq3 => simp
  | .funcCall funcname args => by
    unfold parse_select_expr
    split
    next e heq =>
      split at heq
      · exact error_branch_ne (get_function_ne_nnv _ _ _) heq
      · exact error_branch_ne (get_function_ne_nnv _ _ _) heq
      · exact error_branch_ne (by simp) heq
    next func heq =>
      split
      next e heq2 => exact error_branch_ne (parse_select_expr_list_ne_nnv db src args) heq2
      next cargs heq2 => split <;> simp

/-- Compiling an argument list never raises `NotNullViolation`. -/
theorem parse_select_expr_list_ne_nnv (db : Database) (src : Option QueryTables) :
    ∀ es : List Expr, parse_select_expr_list db src es ≠ Except.error PgError.notNullViolation
  | [] => by simp [parse_select_expr_list]
  | e :: es => by
    unfold parse_select_expr_list
    split
    next e0 heq => exact error_branch_ne (parse_select_expr_ne_nnv db src e) heq
    next c heq =>
      split
      next e0 heq2 => exact error_branch_ne (parse_select_expr_list_ne_nnv db src es) heq2
      next cs heq2 => simp

end

/-- Model of `exceptMapList` cannot raise an error none of its steps raises. -/
theorem exceptMapList_ne_nnv {α β : Type} (f : α → Except PgError β) (l : List α)
    (h : ∀ x ∈ l, f x ≠ Except.error PgError.notNullViolation) :
    exceptMapList f l ≠ Except.error PgError.notNullViolation := by
  induction l with
  | nil => simp [exceptMapList]
  | cons x xs ih =>
    unfold exceptMapList
    split
    next e heq => exact error_branch_ne (h x (by simp)) heq
    next y heq =>
      split
      next e heq2 => exact error_branch_ne (ih (fun a ha => h a (by simp [ha]))) heq2
      next ys heq2 => simp

/-- The INSERT executor never raises `NotNullViolation`. -/
theorem handle_insert_ne_nnv (db : Database) (sn : Option String) (rn : String)
    (cols : List String) (values : List (List Expr)) :
    handle_insert_statement db sn rn cols values ≠ .error .notNullViolation := by
  unfold handle_insert_statement
  split
  next e heq => exact error_branch_ne (get_table_ne_nnv db rn sn) heq
  next table heq =>
    split
    next e heq2 =>
      refine error_branch_ne ?_ heq2
      apply exceptMapList_ne_nnv
      intro row _
      dsimp only
      split
      next e0 heq3 =>
        refine error_branch_ne ?_ heq3
        apply exceptMapList_ne_nnv
        intro ex _
        dsimp only
        split
        next e1 heq4 => exact error_branch_ne (parse_select_expr_ne_nnv db none ex) heq4
        next c heq4 => simp
      next vals heq3 => exact mkRow_ne_nnv _ _
    next newRows heq2 => simp

/-- C5: Constructing a Row against a RowType raises UndefinedColumn iff
some key of the row is not among the row type's columns; a row whose
keys all are columns (in particular one missing some columns) is
accepted; and the NotNullViolation branch of row validation is
unreachable from INSERT. -/
theorem c5_row_validation :
    (∀ (columns : List String) (pairs : List (String × Value)),
      (mkRow columns pairs = .error .undefinedColumn
        ↔ ∃ k ∈ pairs.map Prod.fst, k ∉ columns)
      ∧ ((∀ k ∈ pairs.map Prod.fst, k ∈ columns)
          → mkRow columns pairs = .ok (pyDictOfPairs pairs)))
  ∧ (∀ (db : Database) (sn : Option String) (rn : String) (cols : List String)
      (values : List (List Expr)),
      handle_insert_statement db sn rn cols values ≠ .error .notNullViolation) :=
  ⟨fun columns pairs => ⟨mkRow_error_iff columns pairs, mkRow_ok_of_keys columns pairs⟩,
   handle_insert_ne_nnv⟩

/-- Witness for C5: a row missing column "b" is accepted; a row with an
undeclared key is rejected with UndefinedColumn. -/
theorem c5_row_validation_witness :
    mkRow [("a"), ("b")] [(("a"), Value.int 1)] = .ok [(("a"), Value.int 1)]
  ∧ mkRow [("a"), ("b")] [(("zap"), Value.int 1)] = .error .undefinedColumn :=
  ⟨(c5_row_validation.1 [("a"), ("b")] [(("a"), Value.int 1)]).2 (by decide),
   (c5_row_validation.1 [("a"), ("b")] [(("zap"), Value.int 1)]).1.mpr
     ⟨("zap"), by decide, by decide⟩⟩

/-- A pattern that leaves the escape flag set translates to
`InvalidEscapeSequence`. -/
theorem likeRegexAux_error_of_finalEscaped : ∀ (cs : List Char) (esc : Bool),
    finalEscaped cs esc = true →
    likeRegexAux cs esc = .error .invalidEscapeSequence := by
  intro cs
  induction cs with
  | nil =>
    intro esc h
    simp only [finalEscaped] at h
    simp [likeRegexAux, h]
  | cons c rest ih =>
    intro esc h
    simp only [finalEscaped] at h
    cases esc with
    | true =>
      have hr := ih false (by simpa using h)
      simp [likeRegexAux, hr]
    | false =>
      by_cases hc : c = '\\'
      · subst hc
        simp only [likeRegexAux, if_pos rfl]
        exact ih true (by simpa using h)
      · have hstep : (c == '\\') = false := by simp [hc]
        have hr := ih false (by simpa [hstep] using h)
        by_cases hu : c = '_'
        · simp [likeRegexAux, hc, hu, hr]
        · by_cases hp : c = '%'
          · simp [likeRegexAux, hc, hu, hp, hr]
          · simp [likeRegexAux, hc, hu, hp, hr]

/-- One step of the escape-flag scan, from the right end. -/
theorem finalEscaped_append (cs : List Char) (c : Char) :
    ∀ esc, finalEscaped (cs ++ [c]) esc
      = (if finalEscaped cs esc then false else c == '\\') := by
  induction cs with
  | nil =>
    intro esc
    cases esc <;> simp [finalEscaped]
  | cons d rest ih =>
    intro esc
    simp only [List.cons_append, finalEscaped]
    exact ih _

/-- The final escape flag is set exactly when the trailing backslash run
has odd length: the formal content of "the pattern ends in an unescaped
backslash". -/
theorem finalEscaped_parity : ∀ cs : List Char,
    finalEscaped cs false
      = ((cs.reverse.takeWhile (fun c => c == '\\')).length % 2 == 1) := by
  intro cs
  induction cs using List.reverseRecOn with
  | nil => rfl
  | append_singleton cs c ih =>
    rw [finalEscaped_append]
    rw [List.reverse_append]
    by_cases hc : c = '\\'
    · subst hc
      simp only [List.singleton_append, List.takeWhile_cons, beq_self_eq_true, if_true,
        List.length_cons]
      rw [ih]
      rcases Nat.mod_two_eq_zero_or_one
          ((cs.reverse.takeWhile (fun c => c == '\\')).length) with h0 | h1
      · simp [h0, Nat.add_mod]
      · simp [h1, Nat.add_mod]
    · have hbeq : (c == '\\') = false := by simp [hc]
      cases hfe : finalEscaped cs false <;>
        simp [List.takeWhile_cons, hbeq, hfe]

/-- On a pattern with no `_`, `%` or `\`, the translator succeeds and
emits each character, backslash-protected when it is not a word
character. -/
theorem likeRegexAux_safe : ∀ cs : List Char,
    (∀ c ∈ cs, c ≠ '_' ∧ c ≠ '%' ∧ c ≠ '\\') →
    likeRegexAux cs false
      = .ok (cs.flatMap fun c => if isWordChar c then [c] else ['\\', c]) := by
  intro cs
  induction cs with
  | nil => intro _; rfl
  | cons c rest ih =>
    intro h
    have hc := h c (by simp)
    have hrest : ∀ x ∈ rest, x ≠ '_' ∧ x ≠ '%' ∧ x ≠ '\\' :=
      fun x hx => h x (by simp [hx])
    rw [List.flatMap_cons]
    simp [likeRegexAux, hc.2.2, hc.1, hc.2.1, ih hrest]

/-- A word character is neither a backslash nor a dot. -/
theorem isWordChar_ne (c : Char) (h : isWordChar c) : c ≠ '\\' ∧ c ≠ '.' := by
  constructor <;> (intro hc; subst hc; simp [isWordChar] at h)

/-- The emitted regex of a safe pattern parses back to its characters as
literal tokens. -/
theorem parse_emitted : ∀ cs : List Char,
    (∀ c ∈ cs, c ≠ '_' ∧ c ≠ '%' ∧ c ≠ '\\') →
    parseRegexChars (cs.flatMap fun c => if isWordChar c then [c] else ['\\', c])
      = cs.map RTok.lit := by
  intro cs
  induction cs with
  | nil => intro _; rfl
  | cons c rest ih =>
    intro h
    have hrest : ∀ x ∈ rest, x ≠ '_' ∧ x ≠ '%' ∧ x ≠ '\\' :=
      fun x hx => h x (by simp [hx])
    rw [List.flatMap_cons]
    by_cases hw : isWordChar c
    · rw [if_pos hw]
      have hcs := isWordChar_ne c hw
      cases hemit : rest.flatMap (fun c => if isWordChar c then [c] else ['\\', c]) with
      | nil =>
        have hrnil : rest = [] := by
          cases rest with
          | nil => rfl
          | cons r rs =>
            exfalso
            have := List.flatMap_eq_nil_iff.mp hemit r (by simp)
            by_cases hw2 : isWordChar r <;> simp [hw2] at this
        subst hrnil
        simp [parseRegexChars, hcs.1, hcs.2]
      | cons e1 etail =>
        have hred : parseRegexChars (c :: e1 :: etail)
            = .lit c :: parseRegexChars (e1 :: etail) := by
          simp [parseRegexChars, hcs.1, hcs.2]
        simp only [List.singleton_append]
        rw [hred, ← hemit, ih hrest]
        rfl
    · rw [if_neg hw]
      have hred : parseRegexChars ('\\' :: c :: rest.flatMap
            (fun c => if isWordChar c then [c] else ['\\', c]))
          = .lit c :: parseRegexChars (rest.flatMap
              (fun c => if isWordChar c then [c] else ['\\', c])) := by
        simp [parseRegexChars]
      simp only [List.cons_append, List.nil_append]
      rw [hred, ih hrest]
      rfl

/-- Full-matching a pure-literal token list against the same characters
succeeds. -/
theorem rmatch_lits : ∀ xs : List Char, rmatch charEq (xs.map RTok.lit) xs = true := by
  intro xs
  induction xs with
  | nil => simp [rmatch]
  | cons c rest ih => simp [rmatch, charEq, ih]

/-- C9: `x LIKE x` is true for every string literal free of `_`, `%` and
backslash; and any LIKE/ILIKE whose pattern ends in an unescaped
backslash (a trailing backslash run of odd length) raises
InvalidEscapeSequence. -/
theorem c9_like_roundtrip_and_trailing_escape :
    (∀ x : String, (∀ c ∈ x.data, c ≠ '_' ∧ c ≠ '%' ∧ c ≠ '\\') →
      like_operator x x = .ok true)
  ∧ (∀ pattern text : String, trailingBackslashCount pattern % 2 = 1 →
      like_operator text pattern = .error .invalidEscapeSequence
      ∧ ilike_operator text pattern = .error .invalidEscapeSequence) := by
  constructor
  · intro x h
    have htr : like_pattern_to_regex x
        = .ok (x.data.flatMap fun c => if isWordChar c then [c] else ['\\', c]) :=
      likeRegexAux_safe x.data h
    simp only [like_operator, htr]
    rw [parse_emitted x.data h, rmatch_lits]
  · intro pattern text h
    have herr : like_pattern_to_regex pattern = .error .invalidEscapeSequence := by
      apply likeRegexAux_error_of_finalEscaped
      rw [finalEscaped_parity]
      simpa [trailingBackslashCount] using h
    constructor
    · simp only [like_operator, herr]
    · simp only [ilike_operator, herr]

/-- Witness for C9 at concrete inputs. -/
theorem c9_like_witness :
    like_operator ("abc") ("abc") = .ok true
  ∧ like_operator ("foo") ("ab\\") = .error .invalidEscapeSequence
  ∧ ilike_operator ("foo") ("ab\\") = .error .invalidEscapeSequence :=
  ⟨c9_like_roundtrip_and_trailing_escape.1 ("abc") (by decide),
   (c9_like_roundtrip_and_trailing_escape.2 ("ab\\") ("foo") (by decide)).1,
   (c9_like_roundtrip_and_trailing_escape.2 ("ab\\") ("foo") (by decide)).2⟩

/-- A successful `exceptMapList` preserves length. -/
theorem exceptMapList_ok_length {α β : Type} (f : α → Except PgError β) :
    ∀ (l : List α) (ys : List β), exceptMapList f l = .ok ys → ys.length = l.length := by
  intro l
  induction l with
  | nil =>
    intro ys h
    simp only [exceptMapList] at h
    injection h with h2
    subst h2
    rfl
  | cons x xs ih =>
    intro ys h
    unfold exceptMapList at h
    split at h
    · exact absurd h (by simp)
    · split at h
      · exact absurd h (by simp)
      · injection h with h2
        subst h2
        rename_i y _ ys2 heq2
        simp [ih _ heq2]

/-- Stable insertion grows the list by one. -/
theorem insertSorted_length {α : Type} (lt : α → α → Bool) (x : α) :
    ∀ l : List α, (insertSorted lt x l).length = l.length + 1 := by
  intro l
  induction l with
  | nil => rfl
  | cons y ys ih =>
    unfold insertSorted
    split
    · simp
    · simp [ih]

/-- The host sort preserves length. -/
theorem pySorted_length {α : Type} (lt : α → α → Bool) (l : List α) :
    (pySorted lt l).length = l.length := by
  have main : ∀ (l acc : List α),
      (l.foldl (fun acc x => insertSorted lt x acc) acc).length = acc.length + l.length := by
    intro l
    induction l with
    | nil => intro acc; simp
    | cons x xs ih =>
      intro acc
      simp only [List.foldl_cons]
      rw [ih (insertSorted lt x acc), insertSorted_length]
      simp only [List.length_cons]
      omega
  simpa [pySorted] using main l []

/-- A successful ORDER BY application preserves the number of rows. -/
theorem apply_sort_expr_length (db : Database) (sc : List SortBy) (rows : List BRow)
    (src : QueryTables) (rows2 : List BRow)
    (h : apply_sort_expr db sc rows src = .ok rows2) : rows2.length = rows.length := by
  unfold apply_sort_expr at h
  split at h
  · exact absurd h (by simp)
  · split at h
    · exact absurd h (by simp)
    · injection h with h2
      subst h2
      rename_i keyed heq2
      rw [List.length_map, pySorted_length]
      exact exceptMapList_ok_length _ _ _ heq2

/-- Counterexample to C6 as stated: `SELECT 1 WHERE false;` has no FROM
clause but produces an empty ResultSet, not one row. -/
theorem c6_counterexample :
    ¬ ∀ rs : ResultSet,
      handle_select_statement defaultDatabase
          ⟨[], [⟨.aconst (.int 1), none⟩], some (.aconst (.bool false)), []⟩ = .ok rs
        → rs.rows.length = 1 := by
  intro h
  have h1 := h ⟨[("?column?")], []⟩ rfl
  simp at h1

/-- C6 (amended): every SELECT with no FROM clause and no WHERE clause
that executes without error produces a ResultSet with exactly one row,
whatever its target list and sort clause; in particular `SELECT 1;`
yields one row of the single column `?column?` with value 1. -/
theorem c6_no_from_one_row :
    (∀ (db : Database) (targets : List ResTarget) (sortC : List SortBy) (rs : ResultSet),
      handle_select_statement db ⟨[], targets, none, sortC⟩ = .ok rs
      → rs.rows.length = 1)
  ∧ handle_select_statement defaultDatabase ⟨[], [⟨.aconst (.int 1), none⟩], none, []⟩
      = .ok ⟨[("?column?")], [[Value.int 1]]⟩ := by
  constructor
  · intro db targets sortC rs h
    unfold handle_select_statement at h
    simp only [exceptFoldList] at h
    split at h
    · exact absurd h (by simp)
    · split at h
      · exact absurd h (by simp)
      · split at h
        · exact absurd h (by simp)
        · rename_i x2 targets2 heqT x1 rest heqS x0 rows3 heq3
          injection h with h2
          subst h2
          have hlen := exceptMapList_ok_length _ _ _ heq3
          have hrest : rest.length = 1 := by
            revert heqS
            split
            · intro heqS
              injection heqS with h3
              subst h3
              rfl
            · intro heqS
              rw [apply_sort_expr_length _ _ _ _ _ heqS]
              rfl
          show rows3.length = 1
          rw [hlen]
          exact hrest
  · rfl

/-- Witness for C6 (amended), applying the theorem at `SELECT 1;`. -/
theorem c6_no_from_one_row_witness :
    (⟨[("?column?")], [[Value.int 1]]⟩ : ResultSet).rows.length = 1 :=
  c6_no_from_one_row.1 defaultDatabase [⟨.aconst (.int 1), none⟩] []
    ⟨[("?column?")], [[Value.int 1]]⟩ c6_no_from_one_row.2

/-- A left row's match list is empty exactly when no right row satisfies
the quals with it. -/
theorem matchesOf_isEmpty {α β γ : Type} (merge : α → β → γ) (qual : γ → Bool) (l : α) :
    ∀ R : List β,
      (matchesOf merge qual l R).isEmpty = ! R.any (fun r => qual (merge l r)) := by
  intro R
  induction R with
  | nil => rfl
  | cons r rs ih =>
    simp only [matchesOf, List.map_cons, List.filter_cons] at ih ⊢
    by_cases hq : qual (merge l r)
    · simp [hq]
    · simp [hq, ih]

/-- The inner loop of the full join: matches, the missing set filtered of
the right rows this left row matched, and the match flag. -/
theorem fullScanRight_spec {α β γ : Type} [DecidableEq β] (merge : α → β → γ)
    (qual : γ → Bool) (l : α) :
    ∀ (R missing : List β),
      fullScanRight merge qual l R missing =
        (matchesOf merge qual l R,
         missing.filter (fun x => !(decide (x ∈ R) && qual (merge l x))),
         R.any (fun r => qual (merge l r))) := by
  intro R
  induction R with
  | nil =>
    intro missing
    simp [fullScanRight, matchesOf]
  | cons r rs ih =>
    intro missing
    by_cases hq : qual (merge l r)
    · simp only [fullScanRight, if_pos hq, ih, pySetDiscard, List.filter_filter,
        Prod.mk.injEq]
      refine ⟨?_, ?_, ?_⟩
      · simp [matchesOf, List.filter_cons, hq]
      · apply List.filter_congr
        intro x _
        by_cases hx : x = r
        · subst hx; simp [hq]
        · simp [hx, List.mem_cons]
      · simp [hq]
    · simp only [fullScanRight, if_neg hq, ih, Prod.mk.injEq]
      refine ⟨?_, ?_, ?_⟩
      · simp [matchesOf, List.filter_cons, hq]
      · apply List.filter_congr
        intro x _
        by_cases hx : x = r
        · subst hx; simp [hq]
        · simp [hx, List.mem_cons]
      · simp [hq]

/-- The outer loop of the full join: its emitted part is exactly the
left join, and the missing set ends as the right rows matched by no left
row. -/
theorem fullScanLeft_spec {α β γ : Type} [DecidableEq β] (merge : α → β → γ)
    (qual : γ → Bool) (nullR : β) (R : List β) :
    ∀ (L : List α) (missing : List β),
      fullScanLeft merge qual nullR L R missing =
        (leftMergeRows merge qual L R nullR,
         missing.filter (fun x => !(decide (x ∈ R) && L.any (fun l => qual (merge l x))))) := by
  intro L
  induction L with
  | nil =>
    intro missing
    simp [fullScanLeft, leftMergeRows]
  | cons l ls ih =>
    intro missing
    simp only [fullScanLeft, fullScanRight_spec, ih, List.filter_filter, Prod.mk.injEq]
    constructor
    · -- emitted part
      simp only [leftMergeRows, List.flatMap_cons]
      congr 1
      have hiff : ((R.map fun r => merge l r).filter qual) = matchesOf merge qual l R := rfl
      cases hany : R.any (fun r => qual (merge l r)) with
      | true =>
        have hne : (matchesOf merge qual l R).isEmpty = false := by
          rw [matchesOf_isEmpty, hany]
          rfl
        simp [hany, hne, hiff]
      | false =>
        have hml : matchesOf merge qual l R = [] := by
          have h1 := matchesOf_isEmpty merge qual l R
          rw [hany] at h1
          exact List.isEmpty_iff.mp (by simp [h1])
        simp [hany, hiff, hml]
    · -- missing part
      apply List.filter_congr
      intro x _
      cases hm : decide (x ∈ R) with
      | false => simp [hm]
      | true =>
        cases hq : qual (merge l x) <;> cases hls : ls.any (fun l => qual (merge l x)) <;>
          simp [hq, hls, List.any_cons, hm]

/-- Shared characterization of `_full_merge_rows`: the left-join output,
followed by one left-NULL-padded copy of each distinct right row that
matched no left row. -/
theorem fullMergeRows_eq {α β γ : Type} [DecidableEq β] (merge : α → β → γ)
    (qual : γ → Bool) (L : List α) (R : List β) (nullL : α) (nullR : β) :
    fullMergeRows merge qual L R nullL nullR
      = leftMergeRows merge qual L R nullR
        ++ (R.dedup.filter (fun r => ! L.any (fun l => qual (merge l r)))).map
            (fun r => merge nullL r) := by
  rw [show fullMergeRows merge qual L R nullL nullR
      = ((fullScanLeft merge qual nullR L R R.dedup).1
          ++ (fullScanLeft merge qual nullR L R R.dedup).2.map (fun r => merge nullL r))
    from rfl]
  rw [fullScanLeft_spec]
  congr 1
  congr 1
  apply List.filter_congr
  intro x hx
  have hmem : x ∈ R := List.mem_dedup.mp hx
  simp [hmem]

/-- C3 (corrected): a FULL OUTER JOIN emits, in addition to the left-join
output, ONE left-NULL-padded copy of each DISTINCT right row that
matched no left row - `_full_merge_rows` seeds `set(right_rows)`, so
identical unmatched right rows collapse; n identical unmatched rows
produce a single padded copy, not n.  (Merged bound rows of the disjoint
left/right sources are modelled as pairs.) -/
theorem c3_full_join_pads_distinct_unmatched {α β : Type} [DecidableEq β]
    (qual : α × β → Bool) (L : List α) (R : List β) (nullL : α) (nullR : β) :
    fullMergeRows Prod.mk qual L R nullL nullR
      = leftMergeRows Prod.mk qual L R nullR
        ++ (R.dedup.filter (fun r => ! L.any (fun l => qual (l, r)))).map
            (fun r => (nullL, r))
    ∧ ((R.dedup.filter (fun r => ! L.any (fun l => qual (l, r)))).map
        (fun r => ((nullL, r) : α × β))).Nodup := by
  constructor
  · exact fullMergeRows_eq Prod.mk qual L R nullL nullR
  · apply List.Nodup.map
    · intro a b h
      exact congrArg Prod.snd h
    · exact (List.nodup_dedup R).filter _

/-- Counterexample to C3 as stated: two identical unmatched right rows
yield one padded copy in the full join output, not two. -/
theorem c3_counterexample :
    ¬ ((fullMergeRows Prod.mk (fun _ => false) ([] : List (Option Int))
          [some 1, some 1] (none : Option Int) (none : Option Int)).count
        ((none : Option Int), (some 1 : Option Int)) = 2) := by
  decide

/-- Filtering distributes over flatMap. -/
theorem filter_flatMap_list {α γ : Type} (L : List α) (f : α → List γ) (p : γ → Bool) :
    (L.flatMap f).filter p = L.flatMap fun a => (f a).filter p := by
  induction L with
  | nil => rfl
  | cons a as ih => simp [List.flatMap_cons, List.filter_append, ih]

/-- The inner join, grouped by left row. -/
theorem innerMergeRows_eq_flatMap {α β γ : Type} (merge : α → β → γ) (qual : γ → Bool)
    (L : List α) (R : List β) :
    innerMergeRows merge qual L R = L.flatMap fun l => matchesOf merge qual l R := by
  unfold innerMergeRows
  rw [filter_flatMap_list]
  simp [matchesOf]

/-- Multiset decomposition of the left join: the inner join plus one
right-NULL-padded copy of each unmatched left row. -/
theorem leftMergeRows_multiset {α β γ : Type} (merge : α → β → γ) (qual : γ → Bool)
    (nullR : β) (R : List β) :
    ∀ L : List α,
      (↑(leftMergeRows merge qual L R nullR) : Multiset γ)
        = ↑(innerMergeRows merge qual L R)
          + ↑((L.filter fun l => (matchesOf merge qual l R).isEmpty).map
              fun l => merge l nullR) := by
  intro L
  induction L with
  | nil => simp [leftMergeRows, innerMergeRows]
  | cons l ls ih =>
    have hstep : leftMergeRows merge qual (l :: ls) R nullR
        = (if (matchesOf merge qual l R).isEmpty then [merge l nullR]
           else matchesOf merge qual l R) ++ leftMergeRows merge qual ls R nullR := rfl
    rw [hstep, innerMergeRows_eq_flatMap, List.flatMap_cons]
    simp only [List.filter_cons]
    by_cases hemp : (matchesOf merge qual l R).isEmpty
    · have hml : matchesOf merge qual l R = [] := List.isEmpty_iff.mp hemp
      rw [if_pos hemp, if_pos hemp, hml, List.nil_append]
      rw [← Multiset.coe_add]
      rw [ih, innerMergeRows_eq_flatMap]
      simp only [List.map_cons, ← Multiset.cons_coe, ← Multiset.singleton_add,
        Multiset.coe_nil]
      abel
    · rw [if_neg hemp, if_neg hemp]
      rw [← Multiset.coe_add, ← Multiset.coe_add]
      rw [ih, innerMergeRows_eq_flatMap]
      abel

/-- Coerced flatMap products commute (the multiset Fubini used to equate
the inner join with its side-swapped form). -/
theorem coe_flatMap_swap {α β γ : Type} (L : List α) (R : List β) (g : α → β → List γ) :
    (↑(L.flatMap fun l => R.flatMap fun r => g l r) : Multiset γ)
      = ↑(R.flatMap fun r => L.flatMap fun l => g l r) := by
  simp only [← Multiset.coe_bind]
  exact Multiset.bind_bind (L : Multiset α) (R : Multiset β)

/-- The matches of one left row, as a flatMap of singletons. -/
theorem matchesOf_pair_l {α β : Type} (qual : α × β → Bool) (l : α) (R : List β) :
    matchesOf Prod.mk qual l R
      = R.flatMap fun r => if qual (l, r) then [(l, r)] else [] := by
  induction R with
  | nil => rfl
  | cons r rs ih =>
    simp only [matchesOf, List.map_cons, List.filter_cons] at ih ⊢
    by_cases hq : qual (l, r)
    · simp [hq, ih, List.flatMap_cons]
    · simp [hq, ih, List.flatMap_cons]

/-- The matches of one right row of the swapped merge, as a flatMap of
singletons. -/
theorem matchesOf_pair_r {α β : Type} (qual : α × β → Bool) (r : β) (L : List α) :
    matchesOf (fun r l => ((l, r) : α × β)) qual r L
      = L.flatMap fun l => if qual (l, r) then [(l, r)] else [] := by
  induction L with
  | nil => rfl
  | cons l ls ih =>
    simp only [matchesOf, List.map_cons, List.filter_cons] at ih ⊢
    by_cases hq : qual (l, r)
    · simp [hq, ih, List.flatMap_cons]
    · simp [hq, ih, List.flatMap_cons]

/-- The inner join equals its side-swapped form as a multiset. -/
theorem inner_swap_multiset {α β : Type} (qual : α × β → Bool) (L : List α) (R : List β) :
    (↑(L.flatMap fun l => matchesOf Prod.mk qual l R) : Multiset (α × β))
      = ↑(R.flatMap fun r => matchesOf (fun r l => ((l, r) : α × β)) qual r L) := by
  simp only [matchesOf_pair_l, matchesOf_pair_r]
  exact coe_flatMap_swap L R fun l r => if qual (l, r) then [(l, r)] else []

/-- C2 (corrected): the multiset identity the four join algorithms
actually satisfy is LEFT + RIGHT = FULL + INNER (each matched pair is
counted once by the inner join and once more by each outer side), and it
requires the right input to contain no duplicate rows, because
`_full_merge_rows` deduplicates its missing-right set via
`set(right_rows)`.  Merged bound rows of the disjoint left/right sources
are modelled as pairs; the right join merges `{**r, **l}`, equal as a
dict to `{**l, **r}`. -/
theorem c2_join_multiset_identity {α β : Type} [DecidableEq β] (qual : α × β → Bool)
    (L : List α) (R : List β) (nullL : α) (nullR : β) (hR : R.Nodup) :
    (↑(leftMergeRows Prod.mk qual L R nullR)
      + ↑(rightMergeRows (fun r l => ((l, r) : α × β)) qual L R nullL)
      : Multiset (α × β))
    = ↑(fullMergeRows Prod.mk qual L R nullL nullR)
      + ↑(innerMergeRows Prod.mk qual L R) := by
  have hLdec : (↑(leftMergeRows Prod.mk qual L R nullR) : Multiset (α × β))
      = ↑(innerMergeRows Prod.mk qual L R)
        + ↑((L.filter fun l => (matchesOf Prod.mk qual l R).isEmpty).map
            fun l => (l, nullR)) :=
    leftMergeRows_multiset Prod.mk qual nullR R L
  have hRdec : (↑(rightMergeRows (fun r l => ((l, r) : α × β)) qual L R nullL)
        : Multiset (α × β))
      = ↑(innerMergeRows (fun r l => ((l, r) : α × β)) qual R L)
        + ↑((R.filter fun r =>
              (matchesOf (fun r l => ((l, r) : α × β)) qual r L).isEmpty).map
            fun r => (nullL, r)) :=
    leftMergeRows_multiset (fun r l => ((l, r) : α × β)) qual nullL L R
  have hFdec : fullMergeRows Prod.mk qual L R nullL nullR
      = leftMergeRows Prod.mk qual L R nullR
        ++ (R.dedup.filter fun r => ! L.any fun l => qual (l, r)).map
            (fun r => (nullL, r)) :=
    fullMergeRows_eq Prod.mk qual L R nullL nullR
  have hswap : (↑(innerMergeRows (fun r l => ((l, r) : α × β)) qual R L)
        : Multiset (α × β))
      = ↑(innerMergeRows Prod.mk qual L R) := by
    rw [innerMergeRows_eq_flatMap, innerMergeRows_eq_flatMap]
    exact (inner_swap_multiset qual L R).symm
  have hpads : (R.filter fun r =>
        (matchesOf (fun r l => ((l, r) : α × β)) qual r L).isEmpty)
      = R.dedup.filter fun r => ! L.any fun l => qual (l, r) := by
    rw [List.dedup_eq_self.mpr hR]
    apply List.filter_congr
    intro r _
    exact matchesOf_isEmpty (fun r l => ((l, r) : α × β)) qual r L
  rw [hFdec]
  rw [← Multiset.coe_add]
  rw [hLdec, hRdec, hswap, hpads]
  abel

/-- Counterexample to C2 as stated: with one matching pair, the multiset
union of INNER, LEFT and RIGHT contains the pair three times while FULL
contains it once. -/
theorem c2_counterexample :
    ¬ ((↑(innerMergeRows Prod.mk (fun _ => true) [(some 1 : Option Int)]
            [(some 2 : Option Int)])
        + ↑(leftMergeRows Prod.mk (fun _ => true) [(some 1 : Option Int)]
            [(some 2 : Option Int)] (none : Option Int))
        + ↑(rightMergeRows (fun r l => ((l, r) : Option Int × Option Int)) (fun _ => true)
            [(some 1 : Option Int)] [(some 2 : Option Int)] (none : Option Int))
        : Multiset (Option Int × Option Int))
      = ↑(fullMergeRows Prod.mk (fun _ => true) [(some 1 : Option Int)]
            [(some 2 : Option Int)] (none : Option Int) (none : Option Int))) := by
  decide

/-- Witness for C2 (amended) at concrete inputs. -/
theorem c2_join_multiset_identity_witness :
    (↑(leftMergeRows Prod.mk (fun _ => true) [(some 1 : Option Int)]
        [(some 2 : Option Int)] (none : Option Int))
      + ↑(rightMergeRows (fun r l => ((l, r) : Option Int × Option Int)) (fun _ => true)
          [(some 1 : Option Int)] [(some 2 : Option Int)] (none : Option Int))
      : Multiset (Option Int × Option Int))
    = ↑(fullMergeRows Prod.mk (fun _ => true) [(some 1 : Option Int)]
          [(some 2 : Option Int)] (none : Option Int) (none : Option Int))
      + ↑(innerMergeRows Prod.mk (fun _ => true) [(some 1 : Option Int)]
          [(some 2 : Option Int)]) :=
  c2_join_multiset_identity (fun _ => true) [(some 1 : Option Int)]
    [(some 2 : Option Int)] (none : Option Int) (none : Option Int) (by decide)

/-- C1 (code bug): of the built-in converters applied by a TypeCast,
`bool` and `text` pass NULL through, but `integer`/`int4` is the bare
host `int` builtin, and `int(None)` raises a host TypeError instead of
passing NULL through: evaluating `NULL::integer` raises. -/
theorem c1_null_cast_behaviour :
    compile_eval defaultDatabase none (.typecast [("bool")] (.aconst .null)) [] = .ok .null
  ∧ compile_eval defaultDatabase none (.typecast [("text")] (.aconst .null)) [] = .ok .null
  ∧ compile_eval defaultDatabase none (.typecast [("integer")] (.aconst .null)) []
      = .error (.hostError .typeError)
  ∧ compile_eval defaultDatabase none (.typecast [("int4")] (.aconst .null)) []
      = .error (.hostError .typeError) :=
  ⟨rfl, rfl, rfl, rfl⟩

end Pystgres
